import Mathlib

/-!
Shallow embedding of the scoring and simulation pipeline of the
Python-Moral-Graph repository (file psych_experiment_simulator.py, with the
weighted-score aggregation of src/moral_graph/core.py), together with proofs
of the behavioural claims about it.

Randomness of the Python random module is modelled as an explicit stream of
natural numbers (Rng).  The operating-system entropy consumed by uuid.uuid4
is a second, independent stream (Entropy), and the wall clock read by
datetime.now().isoformat() is a third stream (Clock).  Python dictionaries
keyed by strings are modelled as association lists with update-or-append
insertion, matching the insertion-order semantics of dict.  Fallible Python
code (raise ValueError) is modelled with Except String.
-/

/-- Deterministic model of the seeded pseudo-random generator of the random
module: an infinite stream of naturals together with a read position. -/
structure Rng where
  gen : Nat → Nat
  pos : Nat

/-- Draw the next pseudo-random natural and advance the stream. -/
def rngNext (r : Rng) : Nat × Rng :=
  (r.gen r.pos, ⟨r.gen, r.pos + 1⟩)

/-- Model of the operating-system entropy source feeding uuid.uuid4; it is
independent of the seeded Rng stream. -/
structure Entropy where
  gen : Nat → Nat
  pos : Nat

/-- Draw the next raw entropy value and advance the stream. -/
def entropyNext (u : Entropy) : Nat × Entropy :=
  (u.gen u.pos, ⟨u.gen, u.pos + 1⟩)

/-- Model of the wall clock read by datetime.now().isoformat(): a stream of
timestamp strings. -/
structure Clock where
  gen : Nat → String
  pos : Nat

/-- Read the current timestamp and advance the clock. -/
def clockNow (c : Clock) : String × Clock :=
  (c.gen c.pos, ⟨c.gen, c.pos + 1⟩)

/-- Model of the Python test "not s.strip()": a string is blank when every
character is whitespace (in particular when it is empty). -/
def isBlank (s : String) : Bool :=
  s.data.all (fun ch => ch.isWhitespace)

/-- Python dict insertion d[k] = v on a string-keyed dictionary: update the
value in place when the key is present, append the binding otherwise. -/
def dictInsert {α : Type} : List (String × α) → String → α → List (String × α)
  | [], k, v => [(k, v)]
  | (k1, v1) :: rest, k, v =>
      if k1 = k then (k1, v) :: rest else (k1, v1) :: dictInsert rest k v

/-- Python dict lookup d.get(k): the value bound to the first occurrence of
the key, if any. -/
def dictGet {α : Type} : List (String × α) → String → Option α
  | [], _ => none
  | (k1, v1) :: rest, k => if k1 = k then some v1 else dictGet rest k

/-- Decimal digit characters of a positive natural, most significant first;
fuel-based structural recursion so that it reduces inside the kernel. -/
def toDecimalAux : Nat → Nat → List Char
  | 0, _ => []
  | _ + 1, 0 => []
  | fuel + 1, n => toDecimalAux fuel (n / 10) ++ [Nat.digitChar (n % 10)]

/-- Decimal digit characters of a natural number, most significant first. -/
def natToChars (n : Nat) : List Char :=
  if n = 0 then ['0'] else toDecimalAux n n

/-- The participant identifier f-string "P{i:04d}": a capital P followed by
the decimal digits of i, left-padded with zeros to width four. -/
def participantId (i : Nat) : String :=
  let ds := natToChars i
  String.mk ('P' :: (List.replicate (4 - ds.length) '0' ++ ds))

/-- Identifier produced for a fresh chatbot from one raw draw of the
operating-system entropy source, standing for str(uuid.uuid4()). -/
def uuidString (n : Nat) : String :=
  String.mk ('u' :: 'u' :: 'i' :: 'd' :: '-' :: natToChars n)

/-- The eight fixed academic topics of the experiment. -/
def TOPICS : List String :=
  [ "Psychology and Behavioral Sciences"
  , "Sociology and Anthropology"
  , "Natural Sciences (Physics, Chemistry, Biology)"
  , "Mathematics and Logic"
  , "Technology and Computer Science"
  , "Humanities (History, Philosophy, Literature)"
  , "Economics and Business"
  , "Health and Medicine" ]

/-- A dimension of the evaluation rubric. -/
structure RubricDimension where
  name : String
  description : String
  weight : Int
  possible_scores : List Int
deriving Repr, DecidableEq

/-- Validated construction of a RubricDimension, mirroring the checks of
RubricDimension.__post_init__ in order. -/
def mkRubricDimension (name description : String) (weight : Int)
    (possible_scores : List Int) : Except String RubricDimension :=
  if isBlank name then .error "Name must be a non-empty string"
  else if isBlank description then .error "Description must be a non-empty string"
  else if ¬ (1 ≤ weight ∧ weight ≤ 100) then .error "Weight must be between 1-100"
  else if possible_scores = [] then .error "Possible scores cannot be empty"
  else if ¬ (∀ s ∈ possible_scores, 1 ≤ s ∧ s ≤ 5) then
    .error "All scores must be between 1-5"
  else .ok ⟨name, description, weight, possible_scores⟩

/-- The fixed eight-dimension Moral Graph rubric of the module. -/
def MORAL_GRAPH_RUBRIC_DIMENSIONS : List RubricDimension :=
  [ ⟨"Ethical Alignment", "Alignment with ethical guidelines.", 20, [1, 2, 3, 4, 5]⟩
  , ⟨"Empathy and Emotional Intelligence",
      "Ability to understand and respond to emotions.", 15, [1, 2, 3, 4, 5]⟩
  , ⟨"Accuracy and Reliability",
      "Correctness and dependability of information.", 20, [1, 2, 3, 4, 5]⟩
  , ⟨"Engagement and Responsiveness",
      "Maintaining participant interest and timely responses.", 10, [1, 2, 3, 4, 5]⟩
  , ⟨"Cultural Sensitivity",
      "Respect for diverse cultural backgrounds.", 10, [1, 2, 3, 4, 5]⟩
  , ⟨"Conflict Resolution and Problem-Solving",
      "Effectiveness in addressing disagreements or complex issues.", 10, [1, 2, 3, 4, 5]⟩
  , ⟨"Privacy and Confidentiality",
      "Handling of sensitive participant information.", 10, [1, 2, 3, 4, 5]⟩
  , ⟨"Adaptability and Learning",
      "Capability to learn from interactions and improve.", 5, [1, 2, 3, 4, 5]⟩ ]

/-- Sum of the dimension weights of the fixed rubric, computed at module
load exactly as the TOTAL_WEIGHT module constant. -/
def TOTAL_WEIGHT : Int :=
  (MORAL_GRAPH_RUBRIC_DIMENSIONS.map (fun d => d.weight)).sum

/-- The module-load validation that a rubric has weights summing to exactly
100, mirroring the raise ValueError at import time. -/
def checkTotalWeight (dims : List RubricDimension) : Except String Unit :=
  if (dims.map (fun d => d.weight)).sum = 100 then .ok ()
  else .error "Total weight must be 100%"

/-- An AI chatbot of the experiment. -/
structure Chatbot where
  chatbot_id : String
  specialization : String
  rubric_scores : List (String × Int)
deriving Repr, DecidableEq

/-- Validated construction of a Chatbot, mirroring Chatbot.__post_init__. -/
def mkChatbot (chatbot_id specialization : String)
    (rubric_scores : List (String × Int)) : Except String Chatbot :=
  if isBlank chatbot_id then .error "Chatbot ID must be a non-empty string"
  else if ¬ specialization ∈ TOPICS then
    .error ("Invalid specialization: " ++ specialization)
  else .ok ⟨chatbot_id, specialization, rubric_scores⟩

/-- A participant of the experiment. -/
structure Participant where
  participant_id : String
  strengths : List String
  weaknesses : List String
  assigned_chatbots : List (String × Chatbot)
deriving Repr, DecidableEq

/-- Validated construction of a Participant, mirroring the checks of
Participant.__post_init__ in order. -/
def mkParticipant (participant_id : String) (strengths weaknesses : List String)
    (assigned_chatbots : List (String × Chatbot)) : Except String Participant :=
  if isBlank participant_id then .error "Participant ID must be a non-empty string"
  else if ¬ (∀ t ∈ strengths, t ∈ TOPICS) then .error "Invalid strength topic"
  else if ¬ (∀ t ∈ weaknesses, t ∈ TOPICS) then .error "Invalid weakness topic"
  else if ∃ t ∈ strengths, t ∈ weaknesses then
    .error "A topic cannot be both a strength and weakness"
  else .ok ⟨participant_id, strengths, weaknesses, assigned_chatbots⟩

/-- Model of random.choice(l): pick the element at a pseudo-random index;
raises on an empty sequence. -/
def randomChoice (l : List String) (r : Rng) : Except String (String × Rng) :=
  match l with
  | [] => .error "Cannot choose from an empty sequence"
  | a :: l1 =>
      .ok ((a :: l1).get ⟨(rngNext r).1 % (l1.length + 1), Nat.mod_lt _ (Nat.succ_pos _)⟩,
        (rngNext r).2)

/-- Model of random.randint(a, b): a pseudo-random integer with both
endpoints included. -/
def randIntRange (a b : Nat) (r : Rng) : Nat × Rng :=
  (a + (rngNext r).1 % (b - a + 1), (rngNext r).2)

/-- Recursive worker of random.sample: repeatedly pick a pseudo-random index
and remove the chosen element, so the result has pairwise distinct
positions. -/
def sampleGo : Nat → List String → Rng → List String × Rng
  | 0, _, r => ([], r)
  | _ + 1, [], r => ([], r)
  | k + 1, a :: l1, r =>
      ((a :: l1).get ⟨(rngNext r).1 % (l1.length + 1), Nat.mod_lt _ (Nat.succ_pos _)⟩ ::
          (sampleGo k ((a :: l1).eraseIdx ((rngNext r).1 % (l1.length + 1))) (rngNext r).2).1,
        (sampleGo k ((a :: l1).eraseIdx ((rngNext r).1 % (l1.length + 1))) (rngNext r).2).2)

/-- Model of random.sample(l, k): k distinct positions chosen without
replacement; raises when the sample is larger than the population. -/
def randomSample (l : List String) (k : Nat) (r : Rng) :
    Except String (List String × Rng) :=
  if l.length < k then .error "Sample larger than population or is negative"
  else .ok (sampleGo k l r)

/-- Look up a chatbot for a topic in the shared pool, or construct a fresh
one (uuid identifier, empty scores) and append it, as in the find-or-create
loop of assign_chatbots_to_participant. -/
def resolveChatbot (pool : List Chatbot) (topic : String) (u : Entropy) :
    Except String (Chatbot × List Chatbot × Entropy) :=
  match pool.find? (fun cb => cb.specialization = topic) with
  | some cb => .ok (cb, pool, u)
  | none =>
      match mkChatbot (uuidString (entropyNext u).1) topic [] with
      | .ok cb => .ok (cb, pool ++ [cb], (entropyNext u).2)
      | .error e => .error e

/-- Model of assign_chatbots_to_participant: choose one strength topic and
one weakness topic (falling back to the full topic list when the
corresponding list is empty), resolve each against the pool in order, and
record the two role assignments on the participant. -/
def assignChatbotsToParticipant (p : Participant) (pool : List Chatbot)
    (r : Rng) (u : Entropy) :
    Except String (Participant × List Chatbot × Rng × Entropy) :=
  match randomChoice (if p.strengths = [] then TOPICS else p.strengths) r with
  | .error e => .error e
  | .ok (st, r1) =>
    match randomChoice (if p.weaknesses = [] then TOPICS else p.weaknesses) r1 with
    | .error e => .error e
    | .ok (wt, r2) =>
      match resolveChatbot pool st u with
      | .error e => .error e
      | .ok (cbS, pool1, u1) =>
        match resolveChatbot pool1 wt u1 with
        | .error e => .error e
        | .ok (cbW, pool2, u2) =>
            .ok ({ p with assigned_chatbots :=
                dictInsert (dictInsert p.assigned_chatbots "strength" cbS) "weakness" cbW },
              pool2, r2, u2)

/-- A sequence of assign_chatbots_to_participant calls sharing one chatbot
pool, as performed by the experiment driver. -/
def assignFold : List Participant → List Chatbot → Rng → Entropy →
    Except String (List Participant × List Chatbot × Rng × Entropy)
  | [], pool, r, u => .ok ([], pool, r, u)
  | p :: ps, pool, r, u =>
      match assignChatbotsToParticipant p pool r u with
      | .error e => .error e
      | .ok (p1, pool1, r1, u1) =>
          match assignFold ps pool1 r1 u1 with
          | .error e => .error e
          | .ok (ps1, pool2, r2, u2) => .ok (p1 :: ps1, pool2, r2, u2)

/-- Per-dimension loop of score_chatbot_interaction: random.choices is
called with the fixed five-element weight list [0.1, 0.2, 0.4, 0.2, 0.1],
so it raises unless the dimension has exactly five possible scores, and
otherwise returns one of them; the chosen score is written into the scores
dictionary under the dimension name. -/
def buildScores : List RubricDimension → List (String × Int) → Rng →
    Except String (List (String × Int) × Rng)
  | [], acc, r => .ok (acc, r)
  | d :: rest, acc, r =>
      if h5 : d.possible_scores.length = 5 then
        buildScores rest
          (dictInsert acc d.name (d.possible_scores.get ⟨(rngNext r).1 % 5, by omega⟩))
          (rngNext r).2
      else .error "The number of weights does not match the population"

/-- Model of score_chatbot_interaction: build a fresh score dictionary over
the rubric dimensions and install it as the rubric_scores of the chatbot,
replacing whatever was there before. -/
def scoreChatbotInteraction (cb : Chatbot) (dims : List RubricDimension)
    (r : Rng) : Except String (List (String × Int) × Chatbot × Rng) :=
  if dims = [] then .error "Rubric dimensions list cannot be empty"
  else
    match buildScores dims [] r with
    | .ok (scores, r1) => .ok (scores, { cb with rubric_scores := scores }, r1)
    | .error e => .error e

/-- Rounding of a rational to two decimal places, the round(total, 2) of the
Python code. -/
def roundTo2 (q : ℚ) : ℚ :=
  ((round (q * 100) : ℤ) : ℚ) / 100

/-- Accumulation loop of calculate_total_weighted_score: for each dimension
in order, look up its recorded score (raising when it is missing) and add
score times weight divided by 100. -/
def weightedSum (scores : List (String × Int)) : List RubricDimension → Except String ℚ
  | [] => .ok 0
  | d :: rest =>
      match dictGet scores d.name with
      | none => .error ("Missing score for dimension: " ++ d.name)
      | some s =>
          match weightedSum scores rest with
          | .ok t => .ok ((s : ℚ) * ((d.weight : ℚ) / 100) + t)
          | .error e => .error e

/-- Model of calculate_total_weighted_score: guard against an empty rubric
and an unscored chatbot, accumulate the weighted sum, and round it to two
decimal places. -/
def calculateTotalWeightedScore (cb : Chatbot) (dims : List RubricDimension) :
    Except String ℚ :=
  if dims = [] then .error "Rubric dimensions list cannot be empty"
  else if cb.rubric_scores = [] then .error "Chatbot has no scores"
  else
    match weightedSum cb.rubric_scores dims with
    | .ok t => .ok (roundTo2 t)
    | .error e => .error e

/-- Skip-missing accumulation of Chatbot.get_total_score in the core model:
dimensions without a recorded score contribute nothing. -/
def coreWeightedSum (scores : List (String × Int)) : List RubricDimension → ℚ
  | [] => 0
  | d :: rest =>
      (match dictGet scores d.name with
        | some s => (s : ℚ) * ((d.weight : ℚ) / 100)
        | none => 0) + coreWeightedSum scores rest

/-- Model of Chatbot.get_total_score of the core model: zero for an unscored
chatbot, otherwise the weighted sum over the fixed rubric rounded to two
decimal places. -/
def Chatbot.getTotalScore (cb : Chatbot) : ℚ :=
  if cb.rubric_scores = [] then 0
  else roundTo2 (coreWeightedSum cb.rubric_scores MORAL_GRAPH_RUBRIC_DIMENSIONS)

/-- One row of the output table of simulate_experiment. -/
structure Record where
  participantID : String
  chatbotID : String
  specialization : String
  assignmentType : String
  totalWeightedScore : ℚ
  timestamp : String
  dimensionScores : List (String × Int)
deriving Repr, DecidableEq

/-- Scoring loop of simulate_experiment over the role assignments of one
participant: score the chatbot, compute its total weighted score, read the
clock, emit one record, and write the re-scored chatbot back into the pool
(the Python code mutates the pooled object in place). -/
def scoreRoles : List (String × Chatbot) → String → List Chatbot → Rng → Clock →
    Except String (List Record × List Chatbot × Rng × Clock)
  | [], _, pool, r, c => .ok ([], pool, r, c)
  | (key, cb) :: rest, pid, pool, r, c =>
      match scoreChatbotInteraction cb MORAL_GRAPH_RUBRIC_DIMENSIONS r with
      | .error e => .error e
      | .ok (scores, cb1, r1) =>
        match calculateTotalWeightedScore cb1 MORAL_GRAPH_RUBRIC_DIMENSIONS with
        | .error e => .error e
        | .ok total =>
          match scoreRoles rest pid
              (pool.map (fun x => if x.chatbot_id = cb1.chatbot_id then cb1 else x))
              r1 (clockNow c).2 with
          | .error e => .error e
          | .ok (recs, pool2, r2, c2) =>
              .ok (⟨pid, cb1.chatbot_id, cb1.specialization, key, total,
                  (clockNow c).1, scores⟩ :: recs, pool2, r2, c2)

/-- Body of the participant loop of simulate_experiment for index i: build
the participant with sampled disjoint strengths and weaknesses, assign
chatbots from the shared pool, and score both assigned interactions. -/
def simOne (i : Nat) (pool : List Chatbot) (r : Rng) (u : Entropy) (c : Clock) :
    Except String (Participant × List Chatbot × List Record × Rng × Entropy × Clock) :=
  match randomSample TOPICS (randIntRange 1 3 r).1 (randIntRange 1 3 (randIntRange 1 3 r).2).2 with
  | .error e => .error e
  | .ok (strengths, r3) =>
    match randomSample (TOPICS.filter (fun t => ¬ strengths.contains t))
        (randIntRange 1 3 (randIntRange 1 3 r).2).1 r3 with
    | .error e => .error e
    | .ok (weaknesses, r4) =>
      match mkParticipant (participantId i) strengths weaknesses [] with
      | .error e => .error e
      | .ok participant =>
        match assignChatbotsToParticipant participant pool r4 u with
        | .error e => .error e
        | .ok (participant1, pool1, r5, u1) =>
          match scoreRoles participant1.assigned_chatbots (participantId i) pool1 r5 c with
          | .error e => .error e
          | .ok (recs, pool2, r6, c1) => .ok (participant1, pool2, recs, r6, u1, c1)

/-- The participant loop of simulate_experiment, threading the participant
list, the chatbot pool, the accumulated records and the three streams. -/
def simLoop : List Nat → List Participant → List Chatbot → List Record →
    Rng → Entropy → Clock →
    Except String (List Participant × List Chatbot × List Record × Rng × Entropy × Clock)
  | [], ps, pool, recs, r, u, c => .ok (ps, pool, recs, r, u, c)
  | i :: rest, ps, pool, recs, r, u, c =>
      match simOne i pool r u c with
      | .error e => .error e
      | .ok (p, pool1, recs2, r1, u1, c1) =>
          simLoop rest (ps ++ [p]) pool1 (recs ++ recs2) r1 u1 c1

/-- Model of simulate_experiment of the pooled variant: validate the
participant count and run the participant loop for indices 1 to N, returning
the accumulated table rows. -/
def simulateExperiment (num_participants : Int) (r : Rng) (u : Entropy)
    (c : Clock) : Except String (List Record) :=
  if num_participants < 1 then
    .error "Number of participants must be a positive integer"
  else
    match simLoop (List.range' 1 num_participants.toNat) [] [] [] r u c with
    | .ok (_, _, recs, _, _, _) => .ok recs
    | .error e => .error e

instance instDecEqExcept {ε α : Type} [DecidableEq ε] [DecidableEq α] :
    DecidableEq (Except ε α) := fun x y =>
  match x, y with
  | .ok a, .ok b =>
      if h : a = b then isTrue (by rw [h])
      else isFalse (fun hh => h (by cases hh; rfl))
  | .error a, .error b =>
      if h : a = b then isTrue (by rw [h])
      else isFalse (fun hh => h (by cases hh; rfl))
  | .ok _, .error _ => isFalse (fun hh => by cases hh)
  | .error _, .ok _ => isFalse (fun hh => by cases hh)

/-- Numeric value of a decimal digit character. -/
def charToDigit (ch : Char) : Nat := ch.toNat - 48

/-- Big-endian numeric value of a list of decimal digit characters. -/
def valChars (l : List Char) : Nat :=
  l.foldl (fun acc ch => 10 * acc + charToDigit ch) 0

/-- Projection of an output row that blanks the two columns fed by sources
other than the seeded random stream: ChatbotID (uuid4, operating-system
entropy) and Timestamp (wall clock). -/
def Record.stripVolatile (x : Record) : Record :=
  { x with chatbotID := "", timestamp := "" }

/-- A concrete pseudo-random stream used to instantiate theorems. -/
def rngW : Rng := ⟨fun k => k, 0⟩

/-- A concrete entropy stream used to instantiate theorems. -/
def entW : Entropy := ⟨fun k => k, 0⟩

/-- A second concrete entropy stream, offset from the first. -/
def entX : Entropy := ⟨fun k => k + 1, 0⟩

/-- A concrete clock whose readings advance every tick. -/
def clkW : Clock := ⟨fun k => String.mk ('T' :: natToChars k), 0⟩

/-- A second concrete clock, frozen at one reading. -/
def clkX : Clock := ⟨fun _ => "frozen-timestamp", 0⟩

/-- A validly constructible dimension whose score domain has three points
rather than five. -/
def dimShort : RubricDimension :=
  ⟨"Truncated Scale", "A dimension with a three point scale.", 100, [1, 2, 3]⟩

/-- First of two validly constructible dimensions sharing one name. -/
def dimDupA : RubricDimension :=
  ⟨"Shared Name", "First dimension with the shared name.", 50, [1, 2, 3, 4, 5]⟩

/-- Second of two validly constructible dimensions sharing one name. -/
def dimDupB : RubricDimension :=
  ⟨"Shared Name", "Second dimension with the shared name.", 50, [1, 2, 3, 4, 5]⟩

/-- A validly constructible dimension of weight fifty, giving a one-element
rubric whose weights sum to fifty rather than one hundred. -/
def dimHalf : RubricDimension :=
  ⟨"Half Weight", "A dimension weighing fifty percent.", 50, [1, 2, 3, 4, 5]⟩

/-- A chatbot carrying a leftover score entry from an earlier scoring. -/
def cbPrior : Chatbot :=
  ⟨"cb-prior", "Mathematics and Logic", [("Old Dimension", 4)]⟩

/-- A chatbot scored on the one-dimension rubric of weight fifty. -/
def cbHalf : Chatbot :=
  ⟨"cb-half", "Mathematics and Logic", [("Half Weight", 3)]⟩

/-- A chatbot with a full set of recorded scores over the fixed rubric. -/
def cbFull : Chatbot :=
  ⟨"cb-full", "Mathematics and Logic",
    [ ("Ethical Alignment", 3), ("Empathy and Emotional Intelligence", 3)
    , ("Accuracy and Reliability", 3), ("Engagement and Responsiveness", 3)
    , ("Cultural Sensitivity", 3), ("Conflict Resolution and Problem-Solving", 3)
    , ("Privacy and Confidentiality", 3), ("Adaptability and Learning", 3) ]⟩

/-- A chatbot with no recorded scores. -/
def cbEmpty : Chatbot := ⟨"cb-empty", "Mathematics and Logic", []⟩

theorem charToDigit_digitChar : ∀ d, d < 10 → charToDigit (Nat.digitChar d) = d := by
  decide

theorem toDecimalAux_zero : ∀ fuel, toDecimalAux fuel 0 = [] := by
  intro fuel
  cases fuel <;> rfl

theorem foldl_val_toDecimalAux :
    ∀ fuel n, 0 < n → n ≤ fuel → ∀ a : Nat,
      (toDecimalAux fuel n).foldl (fun acc ch => 10 * acc + charToDigit ch) a =
        a * 10 ^ (toDecimalAux fuel n).length + n := by
  intro fuel
  induction fuel with
  | zero => intro n hn hle a; omega
  | succ fuel ih =>
      intro n hn hle a
      have hstep : toDecimalAux (fuel + 1) n =
          toDecimalAux fuel (n / 10) ++ [Nat.digitChar (n % 10)] := by
        match n, hn with
        | Nat.succ m, _ => rfl
      rw [hstep]
      rw [List.foldl_append]
      by_cases hq : n / 10 = 0
      · rw [hq, toDecimalAux_zero]
        simp only [List.foldl_nil, List.foldl_cons, List.nil_append,
          List.length_singleton, pow_one]
        rw [charToDigit_digitChar _ (Nat.mod_lt _ (by omega))]
        omega
      · have hlt : n / 10 ≤ fuel := by
          have := Nat.div_lt_self hn (by omega : 1 < 10)
          omega
        rw [ih (n / 10) (by omega) hlt a]
        simp only [List.foldl_cons, List.foldl_nil, List.length_append,
          List.length_cons, List.length_nil]
        rw [charToDigit_digitChar _ (Nat.mod_lt _ (by omega))]
        have hsplit : 10 * (n / 10) + n % 10 = n := Nat.div_add_mod n 10
        have hpow : 10 ^ ((toDecimalAux fuel (n / 10)).length + (0 + 1)) =
            10 ^ (toDecimalAux fuel (n / 10)).length * 10 := by
          rw [Nat.zero_add, pow_succ]
        rw [hpow]
        ring_nf
        omega

theorem valChars_natToChars (n : Nat) : valChars (natToChars n) = n := by
  unfold valChars natToChars
  by_cases h : n = 0
  · subst h; rfl
  · simp only [h, if_false]
    have := foldl_val_toDecimalAux n n (by omega) (le_refl n) 0
    rw [this]; omega

theorem foldl_val_zeros (k : Nat) :
    (List.replicate k '0').foldl (fun acc ch => 10 * acc + charToDigit ch) 0 = 0 := by
  induction k with
  | zero => rfl
  | succ k ih =>
      rw [List.replicate_succ, List.foldl_cons]
      have : (10 * 0 + charToDigit '0') = 0 := by decide
      rw [this, ih]

theorem valChars_participantId (i : Nat) :
    valChars ((participantId i).data.drop 1) = i := by
  show valChars (('P' :: (List.replicate (4 - (natToChars i).length) '0' ++
      natToChars i)).drop 1) = i
  rw [List.drop_one, List.tail_cons]
  unfold valChars
  rw [List.foldl_append, foldl_val_zeros]
  exact valChars_natToChars i

theorem participantId_injective : Function.Injective participantId := by
  intro i j hij
  have hi := valChars_participantId i
  have hj := valChars_participantId j
  rw [hij] at hi
  omega

theorem isBlank_participantId (i : Nat) : isBlank (participantId i) = false := by
  show (('P' :: (List.replicate (4 - (natToChars i).length) '0' ++
      natToChars i)).all (fun ch => ch.isWhitespace)) = false
  rw [List.all_cons]
  have : ('P'.isWhitespace) = false := by decide
  rw [this]
  rfl

theorem isBlank_uuidString (n : Nat) : isBlank (uuidString n) = false := by
  show (('u' :: 'u' :: 'i' :: 'd' :: '-' :: natToChars n).all
      (fun ch => ch.isWhitespace)) = false
  rw [List.all_cons]
  have : ('u'.isWhitespace) = false := by decide
  rw [this]
  rfl

theorem dictGet_dictInsert {α : Type} (m : List (String × α)) (k k1 : String) (v : α) :
    dictGet (dictInsert m k v) k1 = if k1 = k then some v else dictGet m k1 := by
  induction m with
  | nil =>
      by_cases h : k1 = k
      · subst h; simp [dictInsert, dictGet]
      · have h9 : ¬ k = k1 := fun hh => h hh.symm
        simp [dictInsert, dictGet, h, h9]
  | cons kv rest ih =>
      obtain ⟨k2, v2⟩ := kv
      by_cases h2 : k2 = k
      · subst h2
        by_cases h1 : k1 = k2
        · subst h1; simp [dictInsert, dictGet]
        · have h9 : ¬ k2 = k1 := fun hh => h1 hh.symm
          simp [dictInsert, dictGet, h1, h9]
      · have h8 : ¬ k = k2 := fun hh => h2 hh.symm
        by_cases h1 : k2 = k1
        · subst h1
          simp [dictInsert, dictGet, h2, h8]
        · have h9 : ¬ k1 = k2 := fun hh => h1 hh.symm
          simp [dictInsert, dictGet, h2, h8, h1, h9, ih]

theorem dictInsert_ne_nil {α : Type} (m : List (String × α)) (k : String) (v : α) :
    dictInsert m k v ≠ [] := by
  cases m with
  | nil => simp [dictInsert]
  | cons kv rest =>
      obtain ⟨k2, v2⟩ := kv
      by_cases h : k2 = k <;> simp [dictInsert, h]

theorem dictInsert_length_of_none {α : Type} (m : List (String × α)) (k : String)
    (v : α) (h : dictGet m k = none) :
    (dictInsert m k v).length = m.length + 1 := by
  induction m with
  | nil => rfl
  | cons kv rest ih =>
      obtain ⟨k2, v2⟩ := kv
      by_cases h2 : k2 = k
      · exfalso; rw [dictGet, if_pos h2] at h; cases h
      · rw [dictGet, if_neg h2] at h
        simp [dictInsert, h2, ih h]

theorem TOPICS_nodup : TOPICS.Nodup := by decide

theorem TOPICS_ne_nil : TOPICS ≠ [] := by decide

theorem MORAL_names_nodup :
    (MORAL_GRAPH_RUBRIC_DIMENSIONS.map (fun d => d.name)).Nodup := by decide

theorem MORAL_scores_len5 :
    ∀ d ∈ MORAL_GRAPH_RUBRIC_DIMENSIONS, d.possible_scores.length = 5 := by decide

theorem MORAL_weights_range :
    ∀ d ∈ MORAL_GRAPH_RUBRIC_DIMENSIONS, 1 ≤ d.weight ∧ d.weight ≤ 100 := by decide

theorem MORAL_scores_range :
    ∀ d ∈ MORAL_GRAPH_RUBRIC_DIMENSIONS, ∀ s ∈ d.possible_scores,
      1 ≤ s ∧ s ≤ 5 := by decide

theorem TOTAL_WEIGHT_eq_100 : TOTAL_WEIGHT = 100 := by decide

theorem MORAL_ne_nil : MORAL_GRAPH_RUBRIC_DIMENSIONS ≠ [] := by decide

theorem randomChoice_ok (l : List String) (r : Rng) (h : l ≠ []) :
    ∃ x, randomChoice l r = .ok (x, (rngNext r).2) ∧ x ∈ l := by
  match l, h with
  | a :: l1, _ =>
      refine ⟨_, rfl, ?_⟩
      exact List.get_mem _ _ _

theorem sampleGo_length : ∀ (k : Nat) (l : List String) (r : Rng),
    k ≤ l.length → (sampleGo k l r).1.length = k := by
  intro k
  induction k with
  | zero => intro l r _; rfl
  | succ k ih =>
      intro l r hle
      match l, hle with
      | a :: l1, hle =>
          have hlt : (rngNext r).1 % (l1.length + 1) < (a :: l1).length :=
            Nat.mod_lt _ (Nat.succ_pos _)
          have herase : ((a :: l1).eraseIdx ((rngNext r).1 % (l1.length + 1))).length
              = l1.length := by
            rw [List.length_eraseIdx_of_lt hlt]
            rfl
          show ((sampleGo (k+1) (a :: l1) r)).1.length = k + 1
          rw [sampleGo]
          simp only [List.length_cons]
          rw [ih _ _ (by rw [herase]; exact Nat.lt_succ_iff.mp hle)]

theorem sampleGo_subset : ∀ (k : Nat) (l : List String) (r : Rng),
    ∀ x ∈ (sampleGo k l r).1, x ∈ l := by
  intro k
  induction k with
  | zero => intro l r x hx; cases hx
  | succ k ih =>
      intro l r x hx
      match l with
      | [] => cases hx
      | a :: l1 =>
          rw [sampleGo] at hx
          simp only [List.mem_cons] at hx
          rcases hx with hx | hx
          · rw [hx]; exact List.get_mem _ _ _
          · exact List.eraseIdx_subset _ _ (ih _ _ _ hx)

theorem randomSample_ok (l : List String) (k : Nat) (r : Rng) (h : k ≤ l.length) :
    randomSample l k r = .ok (sampleGo k l r) := by
  unfold randomSample
  rw [if_neg (by omega)]

theorem weightedSum_allPresent (scores : List (String × Int)) :
    ∀ dims : List RubricDimension,
      (∀ d ∈ dims, (dictGet scores d.name).isSome) →
      weightedSum scores dims = .ok (coreWeightedSum scores dims) := by
  intro dims
  induction dims with
  | nil => intro _; rfl
  | cons d rest ih =>
      intro hall
      have hd := hall d (by simp)
      match hsome : dictGet scores d.name with
      | none => rw [hsome] at hd; cases hd
      | some s =>
          rw [weightedSum, hsome, ih (fun x hx => hall x (by simp [hx]))]
          rw [coreWeightedSum, hsome]

theorem weightedSum_missing (scores : List (String × Int)) :
    ∀ dims : List RubricDimension,
      (∃ d ∈ dims, dictGet scores d.name = none) →
      ∃ e, weightedSum scores dims = .error e := by
  intro dims
  induction dims with
  | nil => intro h; exact absurd h (by simp)
  | cons d rest ih =>
      intro h
      match hget : dictGet scores d.name with
      | none => exact ⟨_, by rw [weightedSum, hget]⟩
      | some s =>
          have hrest : ∃ d2 ∈ rest, dictGet scores d2.name = none := by
            rcases h with ⟨d2, hmem, hnone⟩
            rcases List.mem_cons.mp hmem with heq | hmem2
            · subst heq; rw [hget] at hnone; cases hnone
            · exact ⟨d2, hmem2, hnone⟩
          rcases ih hrest with ⟨e, he⟩
          exact ⟨e, by rw [weightedSum, hget, he]⟩

theorem coreWeightedSum_cons_some (scores : List (String × Int))
    (d : RubricDimension) (rest : List RubricDimension) (s : Int)
    (h : dictGet scores d.name = some s) :
    coreWeightedSum scores (d :: rest) =
      (s : ℚ) * ((d.weight : ℚ) / 100) + coreWeightedSum scores rest := by
  rw [coreWeightedSum, h]

theorem coreWeightedSum_bounds (scores : List (String × Int)) :
    ∀ dims : List RubricDimension,
      (∀ d ∈ dims, 1 ≤ d.weight) →
      (∀ d ∈ dims, ∃ s, dictGet scores d.name = some s ∧ 1 ≤ s ∧ s ≤ 5) →
      (((dims.map (fun d => d.weight)).sum : ℚ) / 100 ≤ coreWeightedSum scores dims ∧
        coreWeightedSum scores dims ≤ 5 * ((dims.map (fun d => d.weight)).sum : ℚ) / 100) := by
  intro dims
  induction dims with
  | nil => intro _ _; simp [coreWeightedSum]
  | cons d rest ih =>
      intro hw hs
      rcases hs d (by simp) with ⟨s, hget, hs1, hs5⟩
      have hwd : 1 ≤ d.weight := hw d (by simp)
      rcases ih (fun x hx => hw x (by simp [hx])) (fun x hx => hs x (by simp [hx]))
        with ⟨ihlo, ihhi⟩
      rw [coreWeightedSum_cons_some scores d rest s hget]
      have hcast : (((d :: rest).map (fun x => x.weight)).sum : ℚ) =
          (d.weight : ℚ) + ((rest.map (fun x => x.weight)).sum : ℚ) := by
        push_cast [List.map_cons, List.sum_cons]
        ring
      rw [hcast]
      have hwq : (1 : ℚ) ≤ (d.weight : ℚ) := by exact_mod_cast hwd
      have hs1q : (1 : ℚ) ≤ (s : ℚ) := by exact_mod_cast hs1
      have hs5q : (s : ℚ) ≤ 5 := by exact_mod_cast hs5
      constructor
      · have : (d.weight : ℚ) / 100 ≤ (s : ℚ) * ((d.weight : ℚ) / 100) := by
          nlinarith
        linarith
      · have : (s : ℚ) * ((d.weight : ℚ) / 100) ≤ 5 * (d.weight : ℚ) / 100 := by
          nlinarith
        linarith

theorem roundTo2_bounds (q : ℚ) (h1 : 1 ≤ q) (h5 : q ≤ 5) :
    1 ≤ roundTo2 q ∧ roundTo2 q ≤ 5 := by
  have hlo : (100 : ℤ) ≤ round (q * 100) := by
    rw [round_eq, Int.le_floor]
    push_cast
    linarith
  have hup : round (q * 100) ≤ 500 := by
    rw [round_eq]
    have hlt : ⌊q * 100 + 1 / 2⌋ < 501 := by
      rw [Int.floor_lt]
      push_cast
      linarith
    omega
  have hloq : (100 : ℚ) ≤ ((round (q * 100) : ℤ) : ℚ) := by exact_mod_cast hlo
  have hupq : ((round (q * 100) : ℤ) : ℚ) ≤ 500 := by exact_mod_cast hup
  unfold roundTo2
  constructor <;> linarith

theorem dictGet_nil {α : Type} (k : String) : dictGet ([] : List (String × α)) k = none := rfl

theorem buildScores_spec :
    ∀ (dims : List RubricDimension) (acc : List (String × Int)) (r : Rng),
      (∀ d ∈ dims, d.possible_scores.length = 5) →
      (dims.map (fun d => d.name)).Nodup →
      ∃ scores r1, buildScores dims acc r = .ok (scores, r1) ∧
        (∀ k, (∀ d ∈ dims, d.name ≠ k) → dictGet scores k = dictGet acc k) ∧
        (∀ d ∈ dims, ∃ v, v ∈ d.possible_scores ∧ dictGet scores d.name = some v) := by
  intro dims
  induction dims with
  | nil =>
      intro acc r _ _
      exact ⟨acc, r, rfl, fun k _ => rfl, by simp⟩
  | cons d rest ih =>
      intro acc r h5 hnodup
      have h5d : d.possible_scores.length = 5 := h5 d (by simp)
      have hrest5 : ∀ x ∈ rest, x.possible_scores.length = 5 :=
        fun x hx => h5 x (by simp [hx])
      have hpair : (∀ x ∈ rest, ¬ x.name = d.name) ∧
          (rest.map (fun x => x.name)).Nodup := by simpa using hnodup
      have hnodup2 : (rest.map (fun x => x.name)).Nodup := hpair.2
      have hdfresh : ∀ x ∈ rest, x.name ≠ d.name := hpair.1
      set n := (rngNext r).1 with hn
      set r1 := (rngNext r).2 with hr1
      set s := d.possible_scores.get ⟨n % 5, by omega⟩ with hs
      set acc1 := dictInsert acc d.name s with hacc1
      rcases ih acc1 r1 hrest5 hnodup2 with ⟨scores, r2, heq, hpres, hmem⟩
      refine ⟨scores, r2, ?_, ?_, ?_⟩
      · rw [buildScores, dif_pos h5d]
        exact heq
      · intro k hk
        rw [hpres k (fun x hx => hk x (by simp [hx])), hacc1,
          dictGet_dictInsert, if_neg ?_]
        intro hkk
        exact hk d (by simp) hkk.symm
      · intro x hx
        rcases List.mem_cons.mp hx with heqx | hmemx
        · subst heqx
          refine ⟨s, List.get_mem _ _ _, ?_⟩
          rw [hpres x.name hdfresh, hacc1, dictGet_dictInsert, if_pos rfl]
        · exact hmem x hmemx

theorem buildScores_length :
    ∀ (dims : List RubricDimension) (acc : List (String × Int)) (r : Rng)
      (scores : List (String × Int)) (r1 : Rng),
      buildScores dims acc r = .ok (scores, r1) →
      (dims.map (fun d => d.name)).Nodup →
      (∀ d ∈ dims, dictGet acc d.name = none) →
      scores.length = acc.length + dims.length := by
  intro dims
  induction dims with
  | nil =>
      intro acc r scores r1 heq _ _
      cases heq
      rfl
  | cons d rest ih =>
      intro acc r scores r1 heq hnodup hfresh
      by_cases h5d : d.possible_scores.length = 5
      · rw [buildScores, dif_pos h5d] at heq
        have hpair : (∀ x ∈ rest, ¬ x.name = d.name) ∧
            (rest.map (fun x => x.name)).Nodup := by simpa using hnodup
        have hnodup2 : (rest.map (fun x => x.name)).Nodup := hpair.2
        have hdfresh : ∀ x ∈ rest, x.name ≠ d.name := hpair.1
        have hfresh2 : ∀ x ∈ rest,
            dictGet (dictInsert acc d.name
              (d.possible_scores.get ⟨(rngNext r).1 % 5, by omega⟩)) x.name = none := by
          intro x hx
          rw [dictGet_dictInsert, if_neg (hdfresh x hx)]
          exact hfresh x (by simp [hx])
        have := ih _ _ _ _ heq hnodup2 hfresh2
        rw [this, dictInsert_length_of_none _ _ _ (hfresh d (by simp))]
        simp only [List.length_cons]
        omega
      · rw [buildScores, dif_neg h5d] at heq
        cases heq

theorem scoreChatbot_spec (cb : Chatbot) (dims : List RubricDimension) (r : Rng)
    (hne : dims ≠ []) (h5 : ∀ d ∈ dims, d.possible_scores.length = 5)
    (hnodup : (dims.map (fun d => d.name)).Nodup) :
    ∃ scores r1,
      scoreChatbotInteraction cb dims r =
        .ok (scores, { cb with rubric_scores := scores }, r1) ∧
      (∀ d ∈ dims, ∃ v, v ∈ d.possible_scores ∧ dictGet scores d.name = some v) ∧
      scores ≠ [] := by
  rcases buildScores_spec dims [] r h5 hnodup with ⟨scores, r1, heq, _, hmem⟩
  refine ⟨scores, r1, ?_, hmem, ?_⟩
  · rw [scoreChatbotInteraction, if_neg hne, heq]
  · match dims, hne with
    | d :: rest, _ =>
        intro hnil
        rcases hmem d (by simp) with ⟨v, _, hget⟩
        rw [hnil, dictGet_nil] at hget
        cases hget

theorem calc_ok_of_present (cb : Chatbot) (dims : List RubricDimension)
    (hne : dims ≠ [])
    (hsome : ∀ d ∈ dims, (dictGet cb.rubric_scores d.name).isSome) :
    calculateTotalWeightedScore cb dims =
      .ok (roundTo2 (coreWeightedSum cb.rubric_scores dims)) := by
  have hscores : cb.rubric_scores ≠ [] := by
    match dims, hne with
    | d :: rest, _ =>
        intro hnil
        have := hsome d (by simp)
        rw [hnil, dictGet_nil] at this
        cases this
  rw [calculateTotalWeightedScore, if_neg hne, if_neg hscores,
    weightedSum_allPresent cb.rubric_scores dims hsome]

theorem calc_bounds (cb : Chatbot) (dims : List RubricDimension)
    (hw : ∀ d ∈ dims, 1 ≤ d.weight)
    (hsum : (dims.map (fun d => d.weight)).sum = 100)
    (hs : ∀ d ∈ dims, ∃ s, dictGet cb.rubric_scores d.name = some s ∧ 1 ≤ s ∧ s ≤ 5) :
    ∃ q, calculateTotalWeightedScore cb dims = .ok q ∧
      1 ≤ q ∧ q ≤ 5 ∧ ∃ z : ℤ, q = (z : ℚ) / 100 := by
  have hne : dims ≠ [] := by
    intro hnil
    rw [hnil] at hsum
    simp at hsum
  have hsome : ∀ d ∈ dims, (dictGet cb.rubric_scores d.name).isSome := by
    intro d hd
    rcases hs d hd with ⟨s, hget, _, _⟩
    rw [hget]
    rfl
  rcases coreWeightedSum_bounds cb.rubric_scores dims hw hs with ⟨hlo, hhi⟩
  have hsumq : (List.map (fun d : RubricDimension => (d.weight : ℚ)) dims).sum = 100 := by
    have h0 : (((dims.map (fun d => d.weight)).sum : ℤ) : ℚ) = 100 := by
      rw [hsum]
      norm_num
    rw [Int.cast_list_sum, List.map_map] at h0
    simpa [Function.comp] using h0
  rw [hsumq] at hlo hhi
  have hlo1 : (1 : ℚ) ≤ coreWeightedSum cb.rubric_scores dims := by linarith
  have hhi5 : coreWeightedSum cb.rubric_scores dims ≤ 5 := by linarith
  rcases roundTo2_bounds _ hlo1 hhi5 with ⟨hb1, hb5⟩
  exact ⟨_, calc_ok_of_present cb dims hne hsome, hb1, hb5,
    round (coreWeightedSum cb.rubric_scores dims * 100), rfl⟩

theorem resolveChatbot_spec (pool : List Chatbot) (topic : String) (u : Entropy)
    (htopic : topic ∈ TOPICS) :
    ∃ cb pool1 u1, resolveChatbot pool topic u = .ok (cb, pool1, u1) ∧
      cb.specialization = topic ∧
      (pool1 = pool ∨
        ((∀ x ∈ pool, x.specialization ≠ topic) ∧ pool1 = pool ++ [cb])) := by
  match hfind : pool.find? (fun cb => cb.specialization = topic) with
  | some cb =>
      refine ⟨cb, pool, u, ?_, ?_, Or.inl rfl⟩
      · rw [resolveChatbot, hfind]
      · have := List.find?_some hfind
        exact of_decide_eq_true this
  | none =>
      have hmk : mkChatbot (uuidString (entropyNext u).1) topic [] =
          .ok ⟨uuidString (entropyNext u).1, topic, []⟩ := by
        rw [mkChatbot, isBlank_uuidString]
        rw [if_neg (by simp), if_neg (not_not_intro htopic)]
      refine ⟨⟨uuidString (entropyNext u).1, topic, []⟩, _, (entropyNext u).2, ?_, rfl,
        Or.inr ⟨?_, rfl⟩⟩
      · rw [resolveChatbot, hfind, hmk]
      · intro x hx
        have := List.find?_eq_none.mp hfind x hx
        simpa using this


theorem pool_step_nodup (pool pool1 : List Chatbot) (cb : Chatbot) (topic : String)
    (hspec : cb.specialization = topic)
    (hgrow : pool1 = pool ∨
      ((∀ x ∈ pool, x.specialization ≠ topic) ∧ pool1 = pool ++ [cb]))
    (hnd : (pool.map (fun x => x.specialization)).Nodup) :
    (pool1.map (fun x => x.specialization)).Nodup := by
  rcases hgrow with hgrow | ⟨hfresh, hgrow⟩
  · rw [hgrow]; exact hnd
  · rw [hgrow]
    rw [List.map_append]
    rw [List.nodup_append]
    refine ⟨hnd, by simp, ?_⟩
    intro a ha hb
    simp only [List.map_cons, List.map_nil, List.mem_singleton, hspec] at hb
    rcases List.mem_map.mp ha with ⟨x, hx, hax⟩
    exact hfresh x hx (hax.trans hb)

theorem pool_step_mem (pool pool1 : List Chatbot) (cb : Chatbot) (topic : String)
    (hspec : cb.specialization = topic)
    (hgrow : pool1 = pool ∨
      ((∀ x ∈ pool, x.specialization ≠ topic) ∧ pool1 = pool ++ [cb]))
    (x : Chatbot) (hx : x ∈ pool1) : x ∈ pool ∨ x.specialization = topic := by
  rcases hgrow with hgrow | ⟨_, hgrow⟩
  · rw [hgrow] at hx; exact Or.inl hx
  · rw [hgrow] at hx
    rcases List.mem_append.mp hx with hx | hx
    · exact Or.inl hx
    · right
      rw [List.mem_singleton.mp hx, hspec]

theorem assign_pair_spec (p : Participant) (pool1 pool2 : List Chatbot) (r : Rng)
    (u1 u2 : Entropy)
    (hs : ∀ t ∈ p.strengths, t ∈ TOPICS) (hw : ∀ t ∈ p.weaknesses, t ∈ TOPICS) :
    ∃ st wt cbS1 cbW1 cbS2 cbW2 poolA poolB r2 uA uB,
      assignChatbotsToParticipant p pool1 r u1 = .ok
        ({ p with assigned_chatbots :=
            dictInsert (dictInsert p.assigned_chatbots "strength" cbS1) "weakness" cbW1 },
          poolA, r2, uA) ∧
      assignChatbotsToParticipant p pool2 r u2 = .ok
        ({ p with assigned_chatbots :=
            dictInsert (dictInsert p.assigned_chatbots "strength" cbS2) "weakness" cbW2 },
          poolB, r2, uB) ∧
      cbS1.specialization = st ∧ cbW1.specialization = wt ∧
      cbS2.specialization = st ∧ cbW2.specialization = wt ∧
      (st ∈ p.strengths ∨ (p.strengths = [] ∧ st ∈ TOPICS)) ∧
      (wt ∈ p.weaknesses ∨ (p.weaknesses = [] ∧ wt ∈ TOPICS)) ∧
      (∀ x ∈ poolA, x ∈ pool1 ∨ x.specialization = st ∨ x.specialization = wt) ∧
      ((pool1.map (fun x => x.specialization)).Nodup →
        (poolA.map (fun x => x.specialization)).Nodup) := by
  have hstl : (if p.strengths = [] then TOPICS else p.strengths) ≠ [] := by
    by_cases he : p.strengths = [] <;> simp [he, TOPICS_ne_nil]
  have hwtl : (if p.weaknesses = [] then TOPICS else p.weaknesses) ≠ [] := by
    by_cases he : p.weaknesses = [] <;> simp [he, TOPICS_ne_nil]
  rcases randomChoice_ok _ r hstl with ⟨st, hst, hstmem⟩
  rcases randomChoice_ok _ (rngNext r).2 hwtl with ⟨wt, hwt, hwtmem⟩
  have hstT : st ∈ TOPICS := by
    by_cases he : p.strengths = []
    · rw [he] at hstmem; simpa using hstmem
    · exact hs st (by rw [if_neg he] at hstmem; exact hstmem)
  have hwtT : wt ∈ TOPICS := by
    by_cases he : p.weaknesses = []
    · rw [he] at hwtmem; simpa using hwtmem
    · exact hw wt (by rw [if_neg he] at hwtmem; exact hwtmem)
  rcases resolveChatbot_spec pool1 st u1 hstT with ⟨cbS1, poolS1, uS1, hres1, hspecS1, hgrow1⟩
  rcases resolveChatbot_spec pool2 st u2 hstT with ⟨cbS2, poolS2, uS2, hres2, hspecS2, _⟩
  rcases resolveChatbot_spec poolS1 wt uS1 hwtT with ⟨cbW1, poolA, uA, hresW1, hspecW1, hgrowW1⟩
  rcases resolveChatbot_spec poolS2 wt uS2 hwtT with ⟨cbW2, poolB, uB, hresW2, hspecW2, _⟩
  refine ⟨st, wt, cbS1, cbW1, cbS2, cbW2, poolA, poolB, (rngNext (rngNext r).2).2,
    uA, uB, ?_, ?_, hspecS1, hspecW1, hspecS2, hspecW2, ?_, ?_, ?_, ?_⟩
  · simp only [assignChatbotsToParticipant, hst, hwt, hres1, hresW1]
  · simp only [assignChatbotsToParticipant, hst, hwt, hres2, hresW2]
  · by_cases he : p.strengths = []
    · right
      exact ⟨he, hstT⟩
    · left
      rw [if_neg he] at hstmem
      exact hstmem
  · by_cases he : p.weaknesses = []
    · right
      exact ⟨he, hwtT⟩
    · left
      rw [if_neg he] at hwtmem
      exact hwtmem
  · intro x hx
    rcases pool_step_mem poolS1 poolA cbW1 wt hspecW1 hgrowW1 x hx with hx2 | hx2
    · rcases pool_step_mem pool1 poolS1 cbS1 st hspecS1 hgrow1 x hx2 with hx3 | hx3
      · exact Or.inl hx3
      · exact Or.inr (Or.inl hx3)
    · exact Or.inr (Or.inr hx2)
  · intro hnd
    exact pool_step_nodup poolS1 poolA cbW1 wt hspecW1 hgrowW1
      (pool_step_nodup pool1 poolS1 cbS1 st hspecS1 hgrow1 hnd)

theorem scoreRoles_pair :
    ∀ (items1 : List (String × Chatbot)) (items2 : List (String × Chatbot))
      (pid : String) (pool1 pool2 : List Chatbot) (r : Rng) (c1 c2 : Clock),
      items1.map (fun kv => (kv.1, kv.2.specialization)) =
        items2.map (fun kv => (kv.1, kv.2.specialization)) →
      ∃ recs1 recs2 poolA poolB r2 cA cB,
        scoreRoles items1 pid pool1 r c1 = .ok (recs1, poolA, r2, cA) ∧
        scoreRoles items2 pid pool2 r c2 = .ok (recs2, poolB, r2, cB) ∧
        recs1.map Record.stripVolatile = recs2.map Record.stripVolatile ∧
        recs1.map (fun x => (x.participantID, x.assignmentType)) =
          items1.map (fun kv => (pid, kv.1)) := by
  intro items1
  induction items1 with
  | nil =>
      intro items2 pid pool1 pool2 r c1 c2 hrel
      cases items2 with
      | nil => exact ⟨[], [], pool1, pool2, r, c1, c2, rfl, rfl, rfl, rfl⟩
      | cons kv2 rest2 => exact absurd hrel (by simp)
  | cons kv rest1 ih =>
      obtain ⟨key, cb⟩ := kv
      intro items2 pid pool1 pool2 r c1 c2 hrel
      cases items2 with
      | nil => exact absurd hrel (by simp)
      | cons kv2 rest2 =>
          obtain ⟨key2, cb2⟩ := kv2
          simp only [List.map_cons, List.cons.injEq, Prod.mk.injEq] at hrel
          obtain ⟨⟨hkey, hspec⟩, hrest⟩ := hrel
          rcases buildScores_spec MORAL_GRAPH_RUBRIC_DIMENSIONS [] r MORAL_scores_len5
            MORAL_names_nodup with ⟨scores, rB, hbuild, _, hmem⟩
          have hsome : ∀ d ∈ MORAL_GRAPH_RUBRIC_DIMENSIONS,
              (dictGet scores d.name).isSome := by
            intro d hd
            rcases hmem d hd with ⟨v, _, hget⟩
            rw [hget]; rfl
          have hscore1 : scoreChatbotInteraction cb MORAL_GRAPH_RUBRIC_DIMENSIONS r =
              .ok (scores, { cb with rubric_scores := scores }, rB) := by
            rw [scoreChatbotInteraction, if_neg MORAL_ne_nil, hbuild]
          have hscore2 : scoreChatbotInteraction cb2 MORAL_GRAPH_RUBRIC_DIMENSIONS r =
              .ok (scores, { cb2 with rubric_scores := scores }, rB) := by
            rw [scoreChatbotInteraction, if_neg MORAL_ne_nil, hbuild]
          have hcalc1 : calculateTotalWeightedScore { cb with rubric_scores := scores }
              MORAL_GRAPH_RUBRIC_DIMENSIONS =
              .ok (roundTo2 (coreWeightedSum scores MORAL_GRAPH_RUBRIC_DIMENSIONS)) :=
            calc_ok_of_present _ _ MORAL_ne_nil hsome
          have hcalc2 : calculateTotalWeightedScore { cb2 with rubric_scores := scores }
              MORAL_GRAPH_RUBRIC_DIMENSIONS =
              .ok (roundTo2 (coreWeightedSum scores MORAL_GRAPH_RUBRIC_DIMENSIONS)) :=
            calc_ok_of_present _ _ MORAL_ne_nil hsome
          rcases ih rest2 pid
            (pool1.map (fun x =>
              if x.chatbot_id = cb.chatbot_id then { cb with rubric_scores := scores } else x))
            (pool2.map (fun x =>
              if x.chatbot_id = cb2.chatbot_id then { cb2 with rubric_scores := scores } else x))
            rB (clockNow c1).2 (clockNow c2).2 hrest with
            ⟨recsR1, recsR2, poolA, poolB, r2, cA, cB, hrec1, hrec2, hstrip, hpids⟩
          refine ⟨⟨pid, cb.chatbot_id, cb.specialization, key,
              roundTo2 (coreWeightedSum scores MORAL_GRAPH_RUBRIC_DIMENSIONS),
              (clockNow c1).1, scores⟩ :: recsR1,
            ⟨pid, cb2.chatbot_id, cb2.specialization, key2,
              roundTo2 (coreWeightedSum scores MORAL_GRAPH_RUBRIC_DIMENSIONS),
              (clockNow c2).1, scores⟩ :: recsR2,
            poolA, poolB, r2, cA, cB, ?_, ?_, ?_, ?_⟩
          · simp only [scoreRoles, hscore1, hcalc1, hrec1]
          · simp only [scoreRoles, hscore2, hcalc2, hrec2]
          · rw [List.map_cons, List.map_cons, hstrip, hkey, hspec]
            simp [Record.stripVolatile]
          · simp only [List.map_cons, hpids]

theorem length_filter_compl (p q : String → Bool) (hpq : ∀ t, q t = ! p t) :
    ∀ L : List String, L.length = (L.filter p).length + (L.filter q).length := by
  intro L
  induction L with
  | nil => rfl
  | cons a L ih =>
      cases hpa : p a
      · have hqa : q a = true := by rw [hpq, hpa]; rfl
        simp only [List.filter_cons, hpa, hqa, List.length_cons, if_true, if_false,
          Bool.false_eq_true, ite_false, ite_true]
        omega
      · have hqa : q a = false := by rw [hpq, hpa]; rfl
        simp only [List.filter_cons, hpa, hqa, List.length_cons, Bool.false_eq_true,
          ite_false, ite_true]
        omega

theorem filter_contains_length_le (S : List String) :
    (TOPICS.filter (fun t => S.contains t)).length ≤ S.length := by
  apply List.Subperm.length_le
  apply List.Nodup.subperm (TOPICS_nodup.filter _)
  intro x hx
  have hpred := (List.mem_filter.mp hx).2
  exact List.elem_iff.mp hpred

theorem remaining_length_ge (S : List String) :
    (TOPICS.length : Int) - S.length ≤
      ((TOPICS.filter (fun t => ¬ S.contains t)).length : Int) := by
  have hsplit := length_filter_compl (fun t => S.contains t)
    (fun t => ¬ S.contains t) (by
      intro t
      by_cases h : S.contains t = true <;> simp [h]) TOPICS
  have hle := filter_contains_length_le S
  omega

theorem randomSample_ok_pair (l : List String) (k : Nat) (r : Rng)
    (h : k ≤ l.length) :
    randomSample l k r = .ok ((sampleGo k l r).1, (sampleGo k l r).2) :=
  randomSample_ok l k r h

theorem mkParticipant_ok (pid : String) (s w : List String)
    (ac : List (String × Chatbot)) (hblank : isBlank pid = false)
    (hs : ∀ t ∈ s, t ∈ TOPICS) (hw : ∀ t ∈ w, t ∈ TOPICS)
    (hdisj : ¬ ∃ t ∈ s, t ∈ w) :
    mkParticipant pid s w ac = .ok ⟨pid, s, w, ac⟩ := by
  rw [mkParticipant, if_neg (by simp [hblank]), if_neg (not_not_intro hs),
    if_neg (not_not_intro hw), if_neg hdisj]

theorem dictInsert_two (cbS cbW : Chatbot) :
    dictInsert (dictInsert ([] : List (String × Chatbot)) "strength" cbS)
      "weakness" cbW = [("strength", cbS), ("weakness", cbW)] := by
  show dictInsert [("strength", cbS)] "weakness" cbW = _
  rw [dictInsert, if_neg (by decide)]
  rfl

theorem randIntRange13_le (r : Rng) : (randIntRange 1 3 r).1 ≤ 3 := by
  show 1 + (rngNext r).1 % (3 - 1 + 1) ≤ 3
  omega

theorem simOne_pair (i : Nat) (pool1 pool2 : List Chatbot) (r : Rng)
    (u1 u2 : Entropy) (c1 c2 : Clock) :
    ∃ p1 p2 poolA poolB recs1 recs2 r2 uA uB cA cB,
      simOne i pool1 r u1 c1 = .ok (p1, poolA, recs1, r2, uA, cA) ∧
      simOne i pool2 r u2 c2 = .ok (p2, poolB, recs2, r2, uB, cB) ∧
      recs1.map Record.stripVolatile = recs2.map Record.stripVolatile ∧
      recs1.map (fun x => (x.participantID, x.assignmentType)) =
        [(participantId i, "strength"), (participantId i, "weakness")] := by
  have hns3 : (randIntRange 1 3 r).1 ≤ 3 := randIntRange13_le r
  have hns8 : (randIntRange 1 3 r).1 ≤ TOPICS.length := le_trans hns3 (by decide)
  have hnw3 : (randIntRange 1 3 (randIntRange 1 3 r).2).1 ≤ 3 :=
    randIntRange13_le _
  have hsampleS := randomSample_ok_pair TOPICS (randIntRange 1 3 r).1
    (randIntRange 1 3 (randIntRange 1 3 r).2).2 hns8
  have hSlen := sampleGo_length (randIntRange 1 3 r).1 TOPICS
    (randIntRange 1 3 (randIntRange 1 3 r).2).2 hns8
  obtain ⟨S, r3, hSdef⟩ : ∃ S r3, sampleGo (randIntRange 1 3 r).1 TOPICS
      (randIntRange 1 3 (randIntRange 1 3 r).2).2 = (S, r3) := ⟨_, _, rfl⟩
  rw [hSdef] at hsampleS hSlen
  have hSsub : ∀ t ∈ S, t ∈ TOPICS := by
    intro t ht
    exact sampleGo_subset _ _ _ t (by rw [hSdef]; exact ht)
  have hrem : (randIntRange 1 3 (randIntRange 1 3 r).2).1 ≤
      (TOPICS.filter (fun t => ¬ S.contains t)).length := by
    have := remaining_length_ge S
    have hS3 : S.length ≤ 3 := by
      have : S.length = (randIntRange 1 3 r).1 := hSlen
      omega
    have h8 : TOPICS.length = 8 := by decide
    omega
  have hsampleW := randomSample_ok_pair (TOPICS.filter (fun t => ¬ S.contains t))
    (randIntRange 1 3 (randIntRange 1 3 r).2).1 r3 hrem
  obtain ⟨W, r4, hWdef⟩ : ∃ W r4, sampleGo (randIntRange 1 3 (randIntRange 1 3 r).2).1
      (TOPICS.filter (fun t => ¬ S.contains t)) r3 = (W, r4) := ⟨_, _, rfl⟩
  rw [hWdef] at hsampleW
  have hWfil : ∀ t ∈ W, t ∈ TOPICS.filter (fun t => ¬ S.contains t) := by
    intro t ht
    exact sampleGo_subset _ _ _ t (by rw [hWdef]; exact ht)
  have hWsub : ∀ t ∈ W, t ∈ TOPICS := by
    intro t ht
    exact (List.mem_filter.mp (hWfil t ht)).1
  have hWnotS : ∀ t ∈ W, t ∉ S := by
    intro t ht hts
    have hpred := (List.mem_filter.mp (hWfil t ht)).2
    simp only [decide_eq_true_eq] at hpred
    exact hpred (List.elem_iff.mpr hts)
  have hdisj : ¬ ∃ t ∈ S, t ∈ W := by
    rintro ⟨t, htS, htW⟩
    exact hWnotS t htW htS
  have hmk : mkParticipant (participantId i) S W [] =
      .ok ⟨participantId i, S, W, []⟩ :=
    mkParticipant_ok _ _ _ _ (isBlank_participantId i) hSsub hWsub hdisj
  rcases assign_pair_spec ⟨participantId i, S, W, []⟩ pool1 pool2 r4 u1 u2
    hSsub hWsub with
    ⟨st, wt, cbS1, cbW1, cbS2, cbW2, poolA0, poolB0, r5, uA, uB, hassign1, hassign2,
      hsS1, hsW1, hsS2, hsW2, _, _, _, _⟩
  have hrelitems : ([("strength", cbS1), ("weakness", cbW1)].map
      (fun kv => (kv.1, kv.2.specialization))) =
      ([("strength", cbS2), ("weakness", cbW2)].map
      (fun kv => (kv.1, kv.2.specialization))) := by
    simp [hsS1, hsW1, hsS2, hsW2]
  rcases scoreRoles_pair [("strength", cbS1), ("weakness", cbW1)]
    [("strength", cbS2), ("weakness", cbW2)] (participantId i) poolA0 poolB0 r5 c1 c2
    hrelitems with
    ⟨recs1, recs2, poolA, poolB, r6, cA, cB, hsr1, hsr2, hstrip, hpids⟩
  refine ⟨⟨participantId i, S, W,
      dictInsert (dictInsert [] "strength" cbS1) "weakness" cbW1⟩,
    ⟨participantId i, S, W,
      dictInsert (dictInsert [] "strength" cbS2) "weakness" cbW2⟩,
    poolA, poolB, recs1, recs2, r6, uA, uB, cA, cB, ?_, ?_, hstrip, ?_⟩
  · simp only [simOne, hsampleS, hsampleW, hmk, hassign1, dictInsert_two, hsr1]
  · simp only [simOne, hsampleS, hsampleW, hmk, hassign2, dictInsert_two, hsr2]
  · rw [hpids]
    rfl

theorem simLoop_pair :
    ∀ (idxs : List Nat) (ps1 ps2 : List Participant) (pool1 pool2 : List Chatbot)
      (recs1 recs2 : List Record) (r : Rng) (u1 u2 : Entropy) (c1 c2 : Clock),
      ∃ psA poolA d1 psB poolB d2 rF uA uB cA cB,
        simLoop idxs ps1 pool1 recs1 r u1 c1 =
          .ok (psA, poolA, recs1 ++ d1, rF, uA, cA) ∧
        simLoop idxs ps2 pool2 recs2 r u2 c2 =
          .ok (psB, poolB, recs2 ++ d2, rF, uB, cB) ∧
        d1.map Record.stripVolatile = d2.map Record.stripVolatile ∧
        d1.map (fun x => (x.participantID, x.assignmentType)) =
          idxs.flatMap
            (fun i => [(participantId i, "strength"), (participantId i, "weakness")]) := by
  intro idxs
  induction idxs with
  | nil =>
      intro ps1 ps2 pool1 pool2 recs1 recs2 r u1 u2 c1 c2
      refine ⟨ps1, pool1, [], ps2, pool2, [], r, u1, u2, c1, c2, ?_, ?_, rfl, rfl⟩
      · rw [List.append_nil]; rfl
      · rw [List.append_nil]; rfl
  | cons i rest ih =>
      intro ps1 ps2 pool1 pool2 recs1 recs2 r u1 u2 c1 c2
      rcases simOne_pair i pool1 pool2 r u1 u2 c1 c2 with
        ⟨p1, p2, poolA0, poolB0, recsI1, recsI2, r2, uA0, uB0, cA0, cB0,
          hsim1, hsim2, hstripI, hpidsI⟩
      rcases ih (ps1 ++ [p1]) (ps2 ++ [p2]) poolA0 poolB0 (recs1 ++ recsI1)
        (recs2 ++ recsI2) r2 uA0 uB0 cA0 cB0 with
        ⟨psA, poolA, d1, psB, poolB, d2, rF, uA, uB, cA, cB,
          hloop1, hloop2, hstripR, hpidsR⟩
      have hpidsI2 : recsI2.map (fun x => (x.participantID, x.assignmentType)) =
          [(participantId i, "strength"), (participantId i, "weakness")] := by
        have hfst : recsI2.map (fun x => (x.participantID, x.assignmentType)) =
            (recsI2.map Record.stripVolatile).map
              (fun x => (x.participantID, x.assignmentType)) := by
          rw [List.map_map]
          rfl
        have hfst1 : recsI1.map (fun x => (x.participantID, x.assignmentType)) =
            (recsI1.map Record.stripVolatile).map
              (fun x => (x.participantID, x.assignmentType)) := by
          rw [List.map_map]
          rfl
        rw [hfst, ← hstripI, ← hfst1, hpidsI]
      refine ⟨psA, poolA, recsI1 ++ d1, psB, poolB, recsI2 ++ d2, rF, uA, uB, cA, cB,
        ?_, ?_, ?_, ?_⟩
      · simp only [simLoop, hsim1, hloop1, ← List.append_assoc]
      · simp only [simLoop, hsim2, hloop2, ← List.append_assoc]
      · rw [List.map_append, List.map_append, hstripI, hstripR]
      · rw [List.map_append, List.flatMap_cons, hpidsI, hpidsR]

theorem flatMap_pair_length (l : List Nat) (f g : Nat → String × String) :
    (l.flatMap (fun i => [f i, g i])).length = 2 * l.length := by
  induction l with
  | nil => rfl
  | cons a l ih =>
      rw [List.flatMap_cons, List.length_append, ih, List.length_cons]
      simp only [List.length_cons, List.length_nil]
      omega

theorem flatMap_pair_toFinset (l : List Nat) :
    ((l.flatMap (fun i => [participantId i, participantId i])).toFinset : Finset String) =
      (l.map participantId).toFinset := by
  ext x
  simp only [List.mem_toFinset, List.mem_flatMap, List.mem_map, List.mem_cons,
    List.mem_singleton, List.not_mem_nil, or_false]
  constructor
  · rintro ⟨i, hi, h | h⟩ <;> exact ⟨i, hi, h.symm⟩
  · rintro ⟨i, hi, h⟩
    exact ⟨i, hi, Or.inl h.symm⟩

theorem simulate_err (n : Int) (hn : n < 1) (r : Rng) (u : Entropy) (c : Clock) :
    simulateExperiment n r u c =
      .error "Number of participants must be a positive integer" := by
  rw [simulateExperiment, if_pos hn]

theorem simulate_spec (n : Nat) (hn : 1 ≤ n) (r : Rng) (u : Entropy) (c : Clock) :
    ∃ recs, simulateExperiment (n : Int) r u c = .ok recs ∧
      recs.length = 2 * n ∧
      recs.map (fun x => (x.participantID, x.assignmentType)) =
        (List.range' 1 n).flatMap
          (fun i => [(participantId i, "strength"), (participantId i, "weakness")]) ∧
      (recs.map (fun x => x.participantID)).toFinset.card = n := by
  rcases simLoop_pair (List.range' 1 n) [] [] [] [] [] [] r u u c c with
    ⟨psA, poolA, d1, psB, poolB, d2, rF, uA, uB, cA, cB, hloop1, hloop2, hstrip, hpids⟩
  refine ⟨d1, ?_, ?_, hpids, ?_⟩
  · rw [simulateExperiment, if_neg (by omega : ¬ (n : Int) < 1)]
    rw [show ((n : Int)).toNat = n from Int.toNat_natCast n]
    rw [hloop1]
    rw [List.nil_append]
  · have := congrArg List.length hpids
    rw [List.length_map, flatMap_pair_length, List.length_range'] at this
    exact this
  · have hfst := congrArg (List.map Prod.fst) hpids
    rw [List.map_map, List.map_flatMap] at hfst
    have hfst2 : d1.map (fun x => x.participantID) =
        (List.range' 1 n).flatMap (fun i => [participantId i, participantId i]) := by
      exact hfst
    rw [hfst2, flatMap_pair_toFinset, List.toFinset_card_of_nodup, List.length_map,
      List.length_range']
    exact List.Nodup.map participantId_injective (List.nodup_range' 1 n)

theorem simulate_map_strip (n : Int) (r : Rng) (u1 u2 : Entropy) (c1 c2 : Clock) :
    (simulateExperiment n r u1 c1).map (fun recs => recs.map Record.stripVolatile) =
      (simulateExperiment n r u2 c2).map (fun recs => recs.map Record.stripVolatile) := by
  by_cases hn : n < 1
  · rw [simulate_err n hn r u1 c1, simulate_err n hn r u2 c2]
  · rcases simLoop_pair (List.range' 1 n.toNat) [] [] [] [] [] [] r u1 u2 c1 c2 with
      ⟨psA, poolA, d1, psB, poolB, d2, rF, uA, uB, cA, cB, hloop1, hloop2, hstrip, _⟩
    rw [simulateExperiment, if_neg hn, hloop1, simulateExperiment, if_neg hn, hloop2]
    simp only [List.nil_append, Except.map]
    rw [hstrip]

theorem coreWeightedSum_in_range (scores : List (String × Int))
    (dims : List RubricDimension)
    (hw : ∀ d ∈ dims, 1 ≤ d.weight)
    (hsum : (dims.map (fun d => d.weight)).sum = 100)
    (hs : ∀ d ∈ dims, ∃ s, dictGet scores d.name = some s ∧ 1 ≤ s ∧ s ≤ 5) :
    1 ≤ coreWeightedSum scores dims ∧ coreWeightedSum scores dims ≤ 5 := by
  rcases coreWeightedSum_bounds scores dims hw hs with ⟨hlo, hhi⟩
  have hsumq : (List.map (fun d : RubricDimension => (d.weight : ℚ)) dims).sum = 100 := by
    have h0 : (((dims.map (fun d => d.weight)).sum : ℤ) : ℚ) = 100 := by
      rw [hsum]
      norm_num
    rw [Int.cast_list_sum, List.map_map] at h0
    simpa [Function.comp] using h0
  rw [hsumq] at hlo hhi
  constructor <;> linarith

theorem coreWeightedSum_eq_specSum (scores : List (String × Int)) :
    ∀ dims : List RubricDimension,
      (∀ d ∈ dims, (dictGet scores d.name).isSome) →
      coreWeightedSum scores dims =
        (dims.map (fun d =>
          ((dictGet scores d.name).getD 0 : ℚ) * (d.weight : ℚ) / 100)).sum := by
  intro dims
  induction dims with
  | nil => intro _; rfl
  | cons d rest ih =>
      intro hall
      have hd := hall d (by simp)
      match hget : dictGet scores d.name with
      | none => rw [hget] at hd; cases hd
      | some s =>
          rw [coreWeightedSum_cons_some scores d rest s hget, List.map_cons,
            List.sum_cons, ih (fun x hx => hall x (by simp [hx])), hget]
          simp only [Option.getD_some]
          ring

theorem calc_missing (cb : Chatbot) (dims : List RubricDimension)
    (hne : dims ≠ [])
    (hmiss : ∃ d ∈ dims, dictGet cb.rubric_scores d.name = none) :
    ∃ e, calculateTotalWeightedScore cb dims = .error e := by
  rw [calculateTotalWeightedScore, if_neg hne]
  by_cases hsc : cb.rubric_scores = []
  · rw [if_pos hsc]
    exact ⟨_, rfl⟩
  · rw [if_neg hsc]
    rcases weightedSum_missing cb.rubric_scores dims hmiss with ⟨e, he⟩
    rw [he]
    exact ⟨e, rfl⟩

theorem assignFold_inv :
    ∀ (ps : List Participant) (pool : List Chatbot) (r : Rng) (u : Entropy),
      (∀ p ∈ ps, (∀ t ∈ p.strengths, t ∈ TOPICS) ∧ (∀ t ∈ p.weaknesses, t ∈ TOPICS)) →
      ∃ ps1 pool1 r1 u1, assignFold ps pool r u = .ok (ps1, pool1, r1, u1) ∧
        ((pool.map (fun x => x.specialization)).Nodup →
          (pool1.map (fun x => x.specialization)).Nodup) ∧
        ∀ S : Finset String,
          (∀ p ∈ ps, p.strengths ≠ [] ∧ p.weaknesses ≠ [] ∧
            (∀ t ∈ p.strengths, t ∈ S) ∧ (∀ t ∈ p.weaknesses, t ∈ S)) →
          (∀ x ∈ pool, x.specialization ∈ S) →
          (∀ x ∈ pool1, x.specialization ∈ S) := by
  intro ps
  induction ps with
  | nil =>
      intro pool r u _
      exact ⟨[], pool, r, u, rfl, fun h => h, fun S _ h => h⟩
  | cons p ps ih =>
      intro pool r u hvalid
      rcases assign_pair_spec p pool pool r u u (hvalid p (by simp)).1
        (hvalid p (by simp)).2 with
        ⟨st, wt, cbS1, cbW1, _, _, poolA, _, r2, uA, _, hassign, _, hsS, hsW, _, _,
          hstmem, hwtmem, hpoolmem, hpoolnd⟩
      rcases ih poolA r2 uA (fun q hq => hvalid q (by simp [hq])) with
        ⟨ps1, pool1, r1, u1, hfold, hnd, hmem⟩
      refine ⟨({ p with assigned_chatbots := dictInsert (dictInsert p.assigned_chatbots "strength" cbS1) "weakness" cbW1 } : Participant) :: ps1, pool1, r1, u1, ?_, ?_, ?_⟩
      · simp only [assignFold, hassign, hfold]
      · intro hnd0
        exact hnd (hpoolnd hnd0)
      · intro S hscen hpool
        apply hmem S (fun q hq => hscen q (by simp [hq]))
        intro x hx
        rcases hscen p (by simp) with ⟨hsne, hwne, hsS2, hwS2⟩
        have hstS : st ∈ S := by
          rcases hstmem with h | ⟨he, _⟩
          · exact hsS2 st h
          · exact absurd he hsne
        have hwtS : wt ∈ S := by
          rcases hwtmem with h | ⟨he, _⟩
          · exact hwS2 wt h
          · exact absurd he hwne
        rcases hpoolmem x hx with h | h | h
        · exact hpool x h
        · rw [h]; exact hstS
        · rw [h]; exact hwtS

/-- C1: for every chatbot whose rubric_scores record a score in [1, 5] for
every dimension of a rubric whose per-dimension weights are validated (in
[1, 100]) and sum to 100, calculate_total_weighted_score returns a value in
[1.0, 5.0] that is rounded to two decimal places (an integer multiple of
1/100); under the same full-score hypothesis for the fixed rubric, the core
model get_total_score satisfies the same bounds and rounding. -/
theorem claim_C1_total_in_range (cb : Chatbot) (dims : List RubricDimension)
    (hw : ∀ d ∈ dims, 1 ≤ d.weight ∧ d.weight ≤ 100)
    (hsum : (dims.map (fun d => d.weight)).sum = 100)
    (hs : ∀ d ∈ dims, ∃ s, dictGet cb.rubric_scores d.name = some s ∧ 1 ≤ s ∧ s ≤ 5)
    (hsMoral : ∀ d ∈ MORAL_GRAPH_RUBRIC_DIMENSIONS,
      ∃ s, dictGet cb.rubric_scores d.name = some s ∧ 1 ≤ s ∧ s ≤ 5) :
    (∃ q, calculateTotalWeightedScore cb dims = .ok q ∧ 1 ≤ q ∧ q ≤ 5 ∧
      ∃ z : ℤ, q = (z : ℚ) / 100) ∧
    (1 ≤ cb.getTotalScore ∧ cb.getTotalScore ≤ 5 ∧
      ∃ z : ℤ, cb.getTotalScore = (z : ℚ) / 100) := by
  constructor
  · exact calc_bounds cb dims (fun d hd => (hw d hd).1) hsum hs
  · have hne : cb.rubric_scores ≠ [] := by
      rcases hsMoral ⟨"Ethical Alignment", "Alignment with ethical guidelines.",
        20, [1, 2, 3, 4, 5]⟩ (by decide) with ⟨s, hget, _, _⟩
      intro hnil
      rw [hnil, dictGet_nil] at hget
      cases hget
    rw [Chatbot.getTotalScore, if_neg hne]
    have hr := coreWeightedSum_in_range cb.rubric_scores MORAL_GRAPH_RUBRIC_DIMENSIONS
      (fun d hd => (MORAL_weights_range d hd).1) TOTAL_WEIGHT_eq_100 hsMoral
    rcases roundTo2_bounds _ hr.1 hr.2 with ⟨h1, h2⟩
    exact ⟨h1, h2,
      round (coreWeightedSum cb.rubric_scores MORAL_GRAPH_RUBRIC_DIMENSIONS * 100), rfl⟩

/-- Witness for C1 at the fully scored chatbot cbFull over the fixed
rubric. -/
theorem claim_C1_witness :
    (∃ q, calculateTotalWeightedScore cbFull MORAL_GRAPH_RUBRIC_DIMENSIONS = .ok q ∧
      1 ≤ q ∧ q ≤ 5 ∧ ∃ z : ℤ, q = (z : ℚ) / 100) ∧
    (1 ≤ cbFull.getTotalScore ∧ cbFull.getTotalScore ≤ 5 ∧
      ∃ z : ℤ, cbFull.getTotalScore = (z : ℚ) / 100) := by
  have hpres : ∀ d ∈ MORAL_GRAPH_RUBRIC_DIMENSIONS,
      ∃ s, dictGet cbFull.rubric_scores d.name = some s ∧ 1 ≤ s ∧ s ≤ 5 := by
    intro d hd
    simp only [MORAL_GRAPH_RUBRIC_DIMENSIONS, List.mem_cons, List.not_mem_nil,
      or_false] at hd
    rcases hd with rfl | rfl | rfl | rfl | rfl | rfl | rfl | rfl <;>
      exact ⟨3, rfl, by decide, by decide⟩
  exact claim_C1_total_in_range cbFull MORAL_GRAPH_RUBRIC_DIMENSIONS
    (by decide) (by decide) hpres hpres

/-- C4: for every chatbot and non-empty rubric,
calculate_total_weighted_score raises when some rubric dimension has no
recorded score (in particular when rubric_scores is empty), and otherwise
computes the rounded sum over all rubric dimensions of score times weight
divided by 100. -/
theorem claim_C4_weighted_sum :
    (∀ (cb : Chatbot) (dims : List RubricDimension), dims ≠ [] →
      (∃ d ∈ dims, dictGet cb.rubric_scores d.name = none) →
      ∃ e, calculateTotalWeightedScore cb dims = .error e) ∧
    (∀ (cb : Chatbot) (dims : List RubricDimension), dims ≠ [] →
      (∀ d ∈ dims, (dictGet cb.rubric_scores d.name).isSome) →
      calculateTotalWeightedScore cb dims =
        .ok (roundTo2 ((dims.map (fun d =>
          ((dictGet cb.rubric_scores d.name).getD 0 : ℚ) *
            (d.weight : ℚ) / 100)).sum))) := by
  constructor
  · intro cb dims hne hmiss
    exact calc_missing cb dims hne hmiss
  · intro cb dims hne hall
    rw [calc_ok_of_present cb dims hne hall,
      coreWeightedSum_eq_specSum cb.rubric_scores dims hall]

/-- Witness for C4: the unscored chatbot cbEmpty raises on the fixed rubric,
and the fully scored chatbot cbFull yields the rounded weighted sum. -/
theorem claim_C4_witness :
    (∃ e, calculateTotalWeightedScore cbEmpty MORAL_GRAPH_RUBRIC_DIMENSIONS =
      .error e) ∧
    calculateTotalWeightedScore cbFull MORAL_GRAPH_RUBRIC_DIMENSIONS =
      .ok (roundTo2 ((MORAL_GRAPH_RUBRIC_DIMENSIONS.map (fun d =>
        ((dictGet cbFull.rubric_scores d.name).getD 0 : ℚ) *
          (d.weight : ℚ) / 100)).sum)) :=
  ⟨claim_C4_weighted_sum.1 cbEmpty MORAL_GRAPH_RUBRIC_DIMENSIONS (by decide)
      (by decide),
    claim_C4_weighted_sum.2 cbFull MORAL_GRAPH_RUBRIC_DIMENSIONS (by decide)
      (by decide)⟩

/-- C6: a successfully constructed Participant keeps the given strengths and
weaknesses, all its topics are valid, and no topic is both a strength and a
weakness; construction raises whenever the two lists share a topic. -/
theorem claim_C6_disjointness :
    (∀ (pid : String) (s w : List String) (ac : List (String × Chatbot))
      (p : Participant),
      mkParticipant pid s w ac = .ok p →
      p.strengths = s ∧ p.weaknesses = w ∧
      (∀ t ∈ p.strengths, t ∈ TOPICS) ∧ (∀ t ∈ p.weaknesses, t ∈ TOPICS) ∧
      (∀ t ∈ p.strengths, t ∉ p.weaknesses)) ∧
    (∀ (pid : String) (s w : List String) (ac : List (String × Chatbot)),
      (∃ t ∈ s, t ∈ w) → ∃ e, mkParticipant pid s w ac = .error e) := by
  constructor
  · intro pid s w ac p h
    rw [mkParticipant] at h
    by_cases h1 : isBlank pid = true
    · rw [if_pos h1] at h
      exact Except.noConfusion h
    · rw [if_neg h1] at h
      by_cases h2 : ∀ t ∈ s, t ∈ TOPICS
      · rw [if_neg (not_not_intro h2)] at h
        by_cases h3 : ∀ t ∈ w, t ∈ TOPICS
        · rw [if_neg (not_not_intro h3)] at h
          by_cases h4 : ∃ t ∈ s, t ∈ w
          · rw [if_pos h4] at h
            exact Except.noConfusion h
          · rw [if_neg h4] at h
            injection h with hp
            subst hp
            exact ⟨rfl, rfl, h2, h3, fun t ht htw => h4 ⟨t, ht, htw⟩⟩
        · rw [if_pos h3] at h
          exact Except.noConfusion h
      · rw [if_pos h2] at h
        exact Except.noConfusion h
  · intro pid s w ac hover
    rw [mkParticipant]
    by_cases h1 : isBlank pid = true
    · rw [if_pos h1]
      exact ⟨_, rfl⟩
    · rw [if_neg h1]
      by_cases h2 : ∀ t ∈ s, t ∈ TOPICS
      · rw [if_neg (not_not_intro h2)]
        by_cases h3 : ∀ t ∈ w, t ∈ TOPICS
        · rw [if_neg (not_not_intro h3), if_pos hover]
          exact ⟨_, rfl⟩
        · rw [if_pos h3]
          exact ⟨_, rfl⟩
      · rw [if_pos h2]
        exact ⟨_, rfl⟩

/-- Witness for C6: a valid participant construction and an overlapping one
that raises. -/
theorem claim_C6_witness :
    ((⟨"P-alpha", ["Mathematics and Logic"], ["Economics and Business"], []⟩ :
        Participant).strengths = ["Mathematics and Logic"] ∧
      (⟨"P-alpha", ["Mathematics and Logic"], ["Economics and Business"], []⟩ :
        Participant).weaknesses = ["Economics and Business"] ∧
      (∀ t ∈ (⟨"P-alpha", ["Mathematics and Logic"], ["Economics and Business"], []⟩ :
        Participant).strengths, t ∈ TOPICS) ∧
      (∀ t ∈ (⟨"P-alpha", ["Mathematics and Logic"], ["Economics and Business"], []⟩ :
        Participant).weaknesses, t ∈ TOPICS) ∧
      (∀ t ∈ (⟨"P-alpha", ["Mathematics and Logic"], ["Economics and Business"], []⟩ :
        Participant).strengths,
        t ∉ (⟨"P-alpha", ["Mathematics and Logic"], ["Economics and Business"], []⟩ :
          Participant).weaknesses)) ∧
    (∃ e, mkParticipant "P-beta" ["Mathematics and Logic"]
      ["Mathematics and Logic"] [] = .error e) :=
  ⟨claim_C6_disjointness.1 "P-alpha" ["Mathematics and Logic"]
      ["Economics and Business"] []
      ⟨"P-alpha", ["Mathematics and Logic"], ["Economics and Business"], []⟩
      (by decide),
    claim_C6_disjointness.2 "P-beta" ["Mathematics and Logic"]
      ["Mathematics and Logic"] []
      ⟨"Mathematics and Logic", by decide, by decide⟩⟩

/-- C8: constructing a RubricDimension raises when its weight lies outside
[1, 100], its possible_scores list is empty, or some possible score lies
outside [1, 5]; and a successful construction implies all three
conditions. -/
theorem claim_C8_dimension_validation :
    (∀ (nm ds : String) (wt : Int) (ps : List Int),
      (¬ (1 ≤ wt ∧ wt ≤ 100) ∨ ps = [] ∨ ∃ s ∈ ps, ¬ (1 ≤ s ∧ s ≤ 5)) →
      ∃ e, mkRubricDimension nm ds wt ps = .error e) ∧
    (∀ (nm ds : String) (wt : Int) (ps : List Int) (d : RubricDimension),
      mkRubricDimension nm ds wt ps = .ok d →
      (1 ≤ wt ∧ wt ≤ 100) ∧ ps ≠ [] ∧ ∀ s ∈ ps, 1 ≤ s ∧ s ≤ 5) := by
  constructor
  · intro nm ds wt ps hbad
    rw [mkRubricDimension]
    by_cases h1 : isBlank nm = true
    · rw [if_pos h1]
      exact ⟨_, rfl⟩
    · rw [if_neg h1]
      by_cases h2 : isBlank ds = true
      · rw [if_pos h2]
        exact ⟨_, rfl⟩
      · rw [if_neg h2]
        by_cases h3 : 1 ≤ wt ∧ wt ≤ 100
        · rw [if_neg (not_not_intro h3)]
          by_cases h4 : ps = []
          · rw [if_pos h4]
            exact ⟨_, rfl⟩
          · rw [if_neg h4]
            by_cases h5 : ∀ s ∈ ps, 1 ≤ s ∧ s ≤ 5
            · exfalso
              rcases hbad with hb | hb | hb
              · exact hb h3
              · exact h4 hb
              · rcases hb with ⟨s, hsmem, hsbad⟩
                exact hsbad (h5 s hsmem)
            · rw [if_pos h5]
              exact ⟨_, rfl⟩
        · rw [if_pos h3]
          exact ⟨_, rfl⟩
  · intro nm ds wt ps d h
    rw [mkRubricDimension] at h
    by_cases h1 : isBlank nm = true
    · rw [if_pos h1] at h
      exact Except.noConfusion h
    · rw [if_neg h1] at h
      by_cases h2 : isBlank ds = true
      · rw [if_pos h2] at h
        exact Except.noConfusion h
      · rw [if_neg h2] at h
        by_cases h3 : 1 ≤ wt ∧ wt ≤ 100
        · rw [if_neg (not_not_intro h3)] at h
          by_cases h4 : ps = []
          · rw [if_pos h4] at h
            exact Except.noConfusion h
          · rw [if_neg h4] at h
            by_cases h5 : ∀ s ∈ ps, 1 ≤ s ∧ s ≤ 5
            · exact ⟨h3, h4, h5⟩
            · rw [if_pos h5] at h
              exact Except.noConfusion h
        · rw [if_pos h3] at h
          exact Except.noConfusion h

/-- Witness for C8: an out-of-range weight raises, and a valid dimension
construction certifies its own validity conditions. -/
theorem claim_C8_witness :
    (∃ e, mkRubricDimension "Some Name" "Some description." 0 [1, 2] = .error e) ∧
    ((1 ≤ (50 : Int) ∧ (50 : Int) ≤ 100) ∧ ([1, 2] : List Int) ≠ [] ∧
      ∀ s ∈ ([1, 2] : List Int), 1 ≤ s ∧ s ≤ 5) :=
  ⟨claim_C8_dimension_validation.1 "Some Name" "Some description." 0 [1, 2]
      (Or.inl (by decide)),
    claim_C8_dimension_validation.2 "Valid Name" "Valid description." 50 [1, 2]
      ⟨"Valid Name", "Valid description.", 50, [1, 2]⟩ (by decide)⟩

/-- C2: every run of the pooled simulate_experiment with N greater or equal
to 1 participants returns a table of exactly 2N rows with exactly N distinct
ParticipantID values, one strength row and one weakness row per
participant. -/
theorem claim_C2_row_counts (n : Nat) (hn : 1 ≤ n) (r : Rng) (u : Entropy)
    (c : Clock) :
    ∃ recs, simulateExperiment (n : Int) r u c = .ok recs ∧
      recs.length = 2 * n ∧
      (recs.map (fun x => x.participantID)).toFinset.card = n ∧
      recs.map (fun x => (x.participantID, x.assignmentType)) =
        (List.range' 1 n).flatMap
          (fun i => [(participantId i, "strength"), (participantId i, "weakness")]) := by
  rcases simulate_spec n hn r u c with ⟨recs, h1, h2, h3, h4⟩
  exact ⟨recs, h1, h2, h4, h3⟩

/-- Witness for C2 at one participant and concrete streams. -/
theorem claim_C2_witness :
    ∃ recs, simulateExperiment ((1 : Nat) : Int) rngW entW clkW = .ok recs ∧
      recs.length = 2 * 1 ∧
      (recs.map (fun x => x.participantID)).toFinset.card = 1 ∧
      recs.map (fun x => (x.participantID, x.assignmentType)) =
        (List.range' 1 1).flatMap
          (fun i => [(participantId i, "strength"), (participantId i, "weakness")]) :=
  claim_C2_row_counts 1 (le_refl 1) rngW entW clkW

/-- C9: simulate_experiment raises on zero or negative participant counts
and succeeds with exactly two rows for a single participant in the pooled
variant. -/
theorem claim_C9_boundary :
    (∀ (n : Int) (r : Rng) (u : Entropy) (c : Clock), n ≤ 0 →
      simulateExperiment n r u c =
        .error "Number of participants must be a positive integer") ∧
    (∀ (r : Rng) (u : Entropy) (c : Clock),
      ∃ recs, simulateExperiment 1 r u c = .ok recs ∧ recs.length = 2) := by
  constructor
  · intro n r u c hn
    exact simulate_err n (by omega) r u c
  · intro r u c
    rcases simulate_spec 1 (le_refl 1) r u c with ⟨recs, h1, h2, _, _⟩
    exact ⟨recs, h1, by omega⟩

/-- Witness for C9 at zero and one participants with concrete streams. -/
theorem claim_C9_witness :
    simulateExperiment 0 rngW entW clkW =
      .error "Number of participants must be a positive integer" ∧
    ∃ recs, simulateExperiment 1 rngW entW clkW = .ok recs ∧ recs.length = 2 :=
  ⟨claim_C9_boundary.1 0 rngW entW clkW (by omega),
    claim_C9_boundary.2 rngW entW clkW⟩

/-- C5: starting from an empty pool, any sequence of
assign_chatbots_to_participant calls on valid participants leaves the pool
with pairwise distinct specializations (at most one chatbot per topic), and
when every participant has non-empty strengths and weaknesses all drawn
from a topic set S, the pool holds at most card S chatbots. -/
theorem claim_C5_pool_dedup (ps : List Participant) (r : Rng) (u : Entropy)
    (hvalid : ∀ p ∈ ps, (∀ t ∈ p.strengths, t ∈ TOPICS) ∧
      (∀ t ∈ p.weaknesses, t ∈ TOPICS)) :
    ∃ ps1 pool1 r1 u1, assignFold ps [] r u = .ok (ps1, pool1, r1, u1) ∧
      (pool1.map (fun x => x.specialization)).Nodup ∧
      ∀ S : Finset String,
        (∀ p ∈ ps, p.strengths ≠ [] ∧ p.weaknesses ≠ [] ∧
          (∀ t ∈ p.strengths, t ∈ S) ∧ (∀ t ∈ p.weaknesses, t ∈ S)) →
        pool1.length ≤ S.card := by
  rcases assignFold_inv ps [] r u hvalid with ⟨ps1, pool1, r1, u1, hfold, hnd, hmem⟩
  refine ⟨ps1, pool1, r1, u1, hfold, hnd (by simp), ?_⟩
  intro S hscen
  have hsub : ∀ x ∈ pool1, x.specialization ∈ S := hmem S hscen (by simp)
  have hnd1 : (pool1.map (fun x => x.specialization)).Nodup := hnd (by simp)
  have hsubF : (pool1.map (fun x => x.specialization)).toFinset ⊆ S := by
    intro a ha
    rw [List.mem_toFinset] at ha
    rcases List.mem_map.mp ha with ⟨x, hx, hax⟩
    rw [← hax]
    exact hsub x hx
  have hcard := Finset.card_le_card hsubF
  rw [List.toFinset_card_of_nodup hnd1, List.length_map] at hcard
  exact hcard

/-- Witness for C5 at one concrete valid participant and concrete streams. -/
theorem claim_C5_witness :
    ∃ ps1 pool1 r1 u1,
      assignFold [⟨"P-gamma", ["Mathematics and Logic"],
        ["Economics and Business"], []⟩] [] rngW entW = .ok (ps1, pool1, r1, u1) ∧
      (pool1.map (fun x => x.specialization)).Nodup ∧
      ∀ S : Finset String,
        (∀ p ∈ [(⟨"P-gamma", ["Mathematics and Logic"],
            ["Economics and Business"], []⟩ : Participant)],
          p.strengths ≠ [] ∧ p.weaknesses ≠ [] ∧
          (∀ t ∈ p.strengths, t ∈ S) ∧ (∀ t ∈ p.weaknesses, t ∈ S)) →
        pool1.length ≤ S.card :=
  claim_C5_pool_dedup [⟨"P-gamma", ["Mathematics and Logic"],
    ["Economics and Business"], []⟩] rngW entW (by decide)

/-- C3 counterexample: a one-dimension rubric of total weight 50 is validly
constructible, and calculate_total_weighted_score happily proceeds on it,
returning 1.5 for a recorded score of 3 — so an operation does run with a
rubric whose weights do not sum to 100. -/
theorem claim_C3_counterexample :
    mkRubricDimension "Half Weight" "A dimension weighing fifty percent." 50
      [1, 2, 3, 4, 5] = .ok dimHalf ∧
    ([dimHalf].map (fun d => d.weight)).sum = 50 ∧
    ∃ q, calculateTotalWeightedScore cbHalf [dimHalf] = .ok q :=
  ⟨by decide, by decide, ⟨_, rfl⟩⟩

/-- C3 amended: the module-load check validates that the fixed rubric has
weights summing to exactly 100 and fails otherwise (the shipped rubric
passes); but operations taking a rubric argument do not re-validate the sum
and can proceed with a rubric whose weights do not sum to 100. -/
theorem claim_C3_amended :
    (∀ dims : List RubricDimension,
      checkTotalWeight dims = .ok () ↔ (dims.map (fun d => d.weight)).sum = 100) ∧
    checkTotalWeight MORAL_GRAPH_RUBRIC_DIMENSIONS = .ok () ∧
    TOTAL_WEIGHT = 100 ∧
    (∃ q, calculateTotalWeightedScore cbHalf [dimHalf] = .ok q) := by
  refine ⟨?_, by decide, TOTAL_WEIGHT_eq_100, ⟨_, rfl⟩⟩
  intro dims
  constructor
  · intro h
    by_cases hs : (dims.map (fun d => d.weight)).sum = 100
    · exact hs
    · rw [checkTotalWeight, if_neg hs] at h
      exact Except.noConfusion h
  · intro hs
    rw [checkTotalWeight, if_pos hs]

/-- C7 counterexample: score_chatbot_interaction is not total on valid
rubrics — on a validly constructed dimension with three possible scores the
fixed five-element weight list makes random.choices raise, and on two
validly constructed dimensions sharing a name the returned dictionary has
one entry, not one per dimension. -/
theorem claim_C7_counterexample :
    mkRubricDimension "Truncated Scale" "A dimension with a three point scale."
      100 [1, 2, 3] = .ok dimShort ∧
    scoreChatbotInteraction cbPrior [dimShort] rngW =
      .error "The number of weights does not match the population" ∧
    mkRubricDimension "Shared Name" "First dimension with the shared name." 50
      [1, 2, 3, 4, 5] = .ok dimDupA ∧
    mkRubricDimension "Shared Name" "Second dimension with the shared name." 50
      [1, 2, 3, 4, 5] = .ok dimDupB ∧
    scoreChatbotInteraction cbPrior [dimDupA, dimDupB] rngW =
      .ok ([("Shared Name", 2)],
        ⟨"cb-prior", "Mathematics and Logic", [("Shared Name", 2)]⟩,
        ⟨fun k => k, 2⟩) ∧
    ([("Shared Name", (2 : Int))].length = 1 ∧
      ([dimDupA, dimDupB] : List RubricDimension).length = 2) :=
  ⟨by decide, rfl, by decide, by decide, rfl, by decide⟩

/-- C7 amended: for every chatbot and every rubric whose dimensions have
pairwise distinct names and exactly five possible scores each (as the fixed
weight list of random.choices requires), score_chatbot_interaction replaces
rubric_scores with a fresh dictionary holding exactly one entry per
dimension, each drawn from that dimension's possible scores, and the result
is the same whatever rubric_scores held before. -/
theorem claim_C7_amended (cb : Chatbot) (dims : List RubricDimension) (r : Rng)
    (hne : dims ≠ []) (h5 : ∀ d ∈ dims, d.possible_scores.length = 5)
    (hnodup : (dims.map (fun d => d.name)).Nodup) :
    ∃ scores r1,
      scoreChatbotInteraction cb dims r =
        .ok (scores, { cb with rubric_scores := scores }, r1) ∧
      scores.length = dims.length ∧
      (∀ d ∈ dims, ∃ v, v ∈ d.possible_scores ∧ dictGet scores d.name = some v) ∧
      ∀ cb2 : Chatbot, scoreChatbotInteraction cb2 dims r =
        .ok (scores, { cb2 with rubric_scores := scores }, r1) := by
  rcases buildScores_spec dims [] r h5 hnodup with ⟨scores, r1, hbuild, _, hmem⟩
  have hlen := buildScores_length dims [] r scores r1 hbuild hnodup (fun d _ => rfl)
  refine ⟨scores, r1, ?_, by simpa using hlen, hmem, ?_⟩
  · rw [scoreChatbotInteraction, if_neg hne, hbuild]
  · intro cb2
    rw [scoreChatbotInteraction, if_neg hne, hbuild]

/-- Witness for the amended C7 at a chatbot with leftover scores and the
fixed rubric. -/
theorem claim_C7_witness :
    ∃ scores r1,
      scoreChatbotInteraction cbPrior MORAL_GRAPH_RUBRIC_DIMENSIONS rngW =
        .ok (scores, { cbPrior with rubric_scores := scores }, r1) ∧
      scores.length = MORAL_GRAPH_RUBRIC_DIMENSIONS.length ∧
      (∀ d ∈ MORAL_GRAPH_RUBRIC_DIMENSIONS,
        ∃ v, v ∈ d.possible_scores ∧ dictGet scores d.name = some v) ∧
      ∀ cb2 : Chatbot, scoreChatbotInteraction cb2 MORAL_GRAPH_RUBRIC_DIMENSIONS rngW =
        .ok (scores, { cb2 with rubric_scores := scores }, r1) :=
  claim_C7_amended cbPrior MORAL_GRAPH_RUBRIC_DIMENSIONS rngW (by decide)
    (by decide) (by decide)

/-- C10 counterexample: with the random seed stream held fixed, two
completing runs differ when the wall clock differs (Timestamp column) and
when the uuid entropy differs (ChatbotID column) — the output tables are not
identical in every column. -/
theorem claim_C10_counterexample :
    (∃ recs, simulateExperiment 1 rngW entW clkW = .ok recs) ∧
    (∃ recs, simulateExperiment 1 rngW entW clkX = .ok recs) ∧
    (∃ recs, simulateExperiment 1 rngW entX clkX = .ok recs) ∧
    (simulateExperiment 1 rngW entW clkW).map (fun recs => recs.map (fun x => x.timestamp)) ≠
      (simulateExperiment 1 rngW entW clkX).map (fun recs => recs.map (fun x => x.timestamp)) ∧
    (simulateExperiment 1 rngW entW clkX).map (fun recs => recs.map (fun x => x.chatbotID)) ≠
      (simulateExperiment 1 rngW entX clkX).map (fun recs => recs.map (fun x => x.chatbotID)) ∧
    simulateExperiment 1 rngW entW clkW ≠ simulateExperiment 1 rngW entW clkX ∧
    simulateExperiment 1 rngW entW clkX ≠ simulateExperiment 1 rngW entX clkX := by
  rcases simulate_spec 1 (le_refl 1) rngW entW clkW with ⟨recs1, h1, _, _, _⟩
  rcases simulate_spec 1 (le_refl 1) rngW entW clkX with ⟨recs2, h2, _, _, _⟩
  rcases simulate_spec 1 (le_refl 1) rngW entX clkX with ⟨recs3, h3, _, _, _⟩
  have hts : (simulateExperiment 1 rngW entW clkW).map
      (fun recs => recs.map (fun x => x.timestamp)) ≠
      (simulateExperiment 1 rngW entW clkX).map
      (fun recs => recs.map (fun x => x.timestamp)) := by decide
  have hid : (simulateExperiment 1 rngW entW clkX).map
      (fun recs => recs.map (fun x => x.chatbotID)) ≠
      (simulateExperiment 1 rngW entX clkX).map
      (fun recs => recs.map (fun x => x.chatbotID)) := by decide
  exact ⟨⟨recs1, h1⟩, ⟨recs2, h2⟩, ⟨recs3, h3⟩, hts, hid,
    fun h => hts (by rw [h]), fun h => hid (by rw [h])⟩

/-- C10 amended: for a fixed random seed and the same participant count, two
invocations either both raise the same error or both complete with tables
identical in every column other than ChatbotID (fed by uuid4 entropy) and
Timestamp (fed by the wall clock). -/
theorem claim_C10_amended (n : Int) (r : Rng) (u1 u2 : Entropy) (c1 c2 : Clock) :
    (simulateExperiment n r u1 c1).map (fun recs => recs.map Record.stripVolatile) =
      (simulateExperiment n r u2 c2).map (fun recs => recs.map Record.stripVolatile) :=
  simulate_map_strip n r u1 u2 c1 c2
